import Mathlib

/-!
# Verification of the gzhttp response-compression layer (gzhttp/gzip.go)

Shallow embedding of the `GzipResponseWriter` state machine and of the
request gate (`acceptsGzip` / `parseCoding` / `parseEncodingGzip`) from
`gzhttp/gzip.go`, together with proofs about the spec's claims.

Modelling conventions:
* Bytes are `Nat` (values are never inspected numerically by the code).
* Go `http.Header` is an association list from canonical header names to
  value lists; every access in the source uses the canonical constants, so
  case folding is not modelled.
* The underlying `http.ResponseWriter` (the sink) is part of the state: its
  observable trace (status-code commits and body writes) plus a "script"
  prescribing the result of each future `Write` call (full success, short
  write, or an error value), which lets theorems quantify over sink
  behaviour.  An empty script means every write succeeds in full.
* The pluggable compressor (`writer.GzipWriter`, external to this file's
  source) is modelled by the byte sequence it has accepted plus a script of
  write results and a prescribed `Close` result; `http.DetectContentType`
  and the content-type filter are opaque parameters carried in the state,
  exactly as the source treats them.
* Go `int` values parsed from `Content-Length` are `Int` (the source
  compares them signed); `minSize` is a `Nat` since construction validates
  `minSize >= 0`.  64-bit overflow of `strconv.ParseInt` is not modelled.
-/

namespace Gzhttp

/-- A Go `error` value, identified by its message (as produced by
`errors.New` / `fmt.Errorf`). -/
inductive GoError where
  | mk (msg : String)
deriving DecidableEq

/-- `io.ErrShortWrite`. -/
def ioErrShortWrite : GoError := .mk "short write"

/-- Go `%q` of a plain string (escape sequences are not modelled; no string
in this development needs them). -/
def goQuote (s : String) : String := "\"" ++ s ++ "\""

/-- The wrapping `Close` applies to a `startPlain` error:
`fmt.Errorf("gziphandler: write to regular responseWriter at close gets error: %q", err.Error())`. -/
def wrapCloseError : GoError → GoError
  | .mk m => .mk ("gziphandler: write to regular responseWriter at close gets error: " ++ goQuote m)

/-- The runtime panic a nil `w.gw` dereference would raise (unreachable;
see `gzipPath`). -/
def nilPtrError : GoError := .mk "runtime error: invalid memory address or nil pointer dereference"

/-! ## Headers -/

/-- `http.Header`: an association list from (canonical) names to value lists. -/
abbrev Headers := List (String × List String)

/-- The value list stored under a key (Go `h[k]`); `[]` when absent. -/
def hvalues : Headers → String → List String
  | [], _ => []
  | (k', v) :: t, k => if k' = k then v else hvalues t k

/-- Go `Header.Get`: the first value under the key, `""` when none. -/
def hget (h : Headers) (k : String) : String := (hvalues h k).headD ""

/-- Go `delete(h, k)` / `Header.Del`. -/
def hdel (h : Headers) (k : String) : Headers := h.filter (fun e => e.1 ≠ k)

/-- Go `Header.Set`: replace the key's values with the one given. -/
def hset (h : Headers) (k v : String) : Headers := (k, [v]) :: hdel h k

/-- Go `_, ok := h[k]`: whether the key is present. -/
def hasKey (h : Headers) (k : String) : Bool := h.any (fun e => e.1 = k)

/-! ## Header name constants (gzip.go) -/

/-- `HeaderNoCompression = "No-Gzip-Compression"`. -/
def HeaderNoCompression : String := "No-Gzip-Compression"

def vary : String := "Vary"

def acceptEncoding : String := "Accept-Encoding"

def contentEncoding : String := "Content-Encoding"

def contentRange : String := "Content-Range"

def acceptRanges : String := "Accept-Ranges"

def contentType : String := "Content-Type"

def contentLength : String := "Content-Length"

/-- `DefaultMinSize = 1024`. -/
def DefaultMinSize : Nat := 1024

/-! ## atoi -/

/-- Digit run to a number; `none` if any char is not a digit. -/
def digitsVal : List Nat → List Char → Option Nat
  | acc, [] => some (acc.foldl (fun a d => a * 10 + d) 0)
  | acc, c :: t => if c.isDigit then digitsVal (acc ++ [c.toNat - '0'.toNat]) t else none

/-- `atoi` from gzip.go: `strconv.ParseInt(s, 10, 0)` converted to `int`.
Optional sign, then decimal digits; `(0, false)` on anything else. -/
def atoi (s : String) : Int × Bool :=
  match s.data with
  | [] => (0, false)
  | c :: rest =>
    let signed : Bool × List Char :=
      if c = '-' then (true, rest) else if c = '+' then (false, rest) else (false, c :: rest)
    match signed.2 with
    | [] => (0, false)
    | ds =>
      match digitsVal [] ds with
      | none => (0, false)
      | some n => (if signed.1 then -(n : Int) else (n : Int), true)

/-! ## Sink and compressor models -/

/-- Outcome a scripted write produces: full acceptance, a short write of
`n` bytes with no error, or an error with nothing accepted. -/
inductive WriteRes where
  | ok
  | short (n : Nat)
  | fail (e : GoError)
deriving DecidableEq

/-- An observable event at the underlying `http.ResponseWriter`. -/
inductive SinkEv where
  | headerEv (code : Nat)
  | bytesEv (b : List Nat)
deriving DecidableEq

/-- The body bytes a trace delivered to the sink, in order. -/
def sinkBytes : List SinkEv → List Nat
  | [] => []
  | .headerEv _ :: t => sinkBytes t
  | .bytesEv b :: t => b ++ sinkBytes t

/-- The number of status-code commits in a trace. -/
def headerEvCount : List SinkEv → Nat
  | [] => 0
  | .headerEv _ :: t => headerEvCount t + 1
  | .bytesEv _ :: t => headerEvCount t

/-- The streaming compressor (`writer.GzipWriter`) bound to the sink:
the bytes it has accepted so far, the scripted results of its future
writes, how often `Flush` was called, and the prescribed `Close` result. -/
structure GzipWriter where
  input : List Nat
  script : List WriteRes
  flushes : Nat
  closeErr : Option GoError
deriving DecidableEq

/-- One write against a compressor. An empty script accepts everything. -/
def gwWrite (g : GzipWriter) (b : List Nat) : GzipWriter × Nat × Option GoError :=
  match g.script with
  | [] => ({ g with input := g.input ++ b }, b.length, none)
  | .ok :: rest => ({ g with input := g.input ++ b, script := rest }, b.length, none)
  | .short n :: rest => ({ g with input := g.input ++ b.take n, script := rest }, min n b.length, none)
  | .fail e :: rest => ({ g with script := rest }, 0, some e)

/-! ## GzipResponseWriter -/

/-- The `GzipResponseWriter` state, together with its wrapped sink.
`sinkScript`/`gwScript`/`gwCloseErr` prescribe downstream behaviour;
`sinkTrace`, `sinkFlushes` and `gwCloses` record what reached downstream.
The compression `level` is not carried: it only parametrises the factory
and never influences any observable modelled here. -/
structure GzipResponseWriter where
  header : Headers
  sinkTrace : List SinkEv
  sinkScript : List WriteRes
  sinkFlushes : Nat
  gwScript : List WriteRes
  gwCloseErr : Option GoError
  gwCloses : Nat
  gw : Option GzipWriter
  code : Nat
  minSize : Nat
  buf : List Nat
  ignore : Bool
  keepAcceptRanges : Bool
  contentTypeFilter : String → Bool
  detectContentType : List Nat → String

/-- One write against the underlying sink (`w.ResponseWriter.Write`). -/
def sinkWrite (w : GzipResponseWriter) (b : List Nat) :
    GzipResponseWriter × Nat × Option GoError :=
  match w.sinkScript with
  | [] => ({ w with sinkTrace := w.sinkTrace ++ [.bytesEv b] }, b.length, none)
  | .ok :: rest =>
      ({ w with sinkTrace := w.sinkTrace ++ [.bytesEv b], sinkScript := rest }, b.length, none)
  | .short n :: rest =>
      ({ w with sinkTrace := w.sinkTrace ++ [.bytesEv (b.take n)], sinkScript := rest },
       min n b.length, none)
  | .fail e :: rest => ({ w with sinkScript := rest }, 0, some e)

/-- `w.ResponseWriter.WriteHeader(c)`. -/
def sinkWriteHeader (w : GzipResponseWriter) (c : Nat) : GzipResponseWriter :=
  { w with sinkTrace := w.sinkTrace ++ [.headerEv c] }

/-- `wantBuf` in `Write`: `max(512, minSize)`. -/
def wantBufSize (w : GzipResponseWriter) : Nat :=
  if w.minSize > 512 then w.minSize else 512

/-- `toAdd` in `Write`: how many bytes of the incoming slice are buffered. -/
def bufTake (w : GzipResponseWriter) (b : List Nat) : Nat :=
  if w.buf.length + b.length > wantBufSize w then wantBufSize w - w.buf.length else b.length

/-- `startGzip` (gzip.go:155-194): set `Content-Encoding: gzip`, drop
`Content-Length` (and `Accept-Ranges` unless kept), flush the pending
status code, and — only if the buffer is non-empty — construct the
compressor and write the buffer through it. -/
def GzipResponseWriter.startGzip (w : GzipResponseWriter) :
    GzipResponseWriter × Option GoError :=
  let h := hset w.header contentEncoding "gzip"
  let h := hdel h contentLength
  let h := if w.keepAcceptRanges then h else hdel h acceptRanges
  let w1 := { w with header := h }
  let w2 := if w1.code ≠ 0 then { sinkWriteHeader w1 w1.code with code := 0 } else w1
  if 0 < w2.buf.length then
    let g0 : GzipWriter :=
      { input := [], script := w2.gwScript, flushes := 0, closeErr := w2.gwCloseErr }
    let r := gwWrite g0 w2.buf
    let e := if r.2.2 = none ∧ r.2.1 < w2.buf.length then some ioErrShortWrite else r.2.2
    ({ w2 with gw := some r.1, buf := [] }, e)
  else (w2, none)

/-- `startPlain` (gzip.go:196-219): flush the pending status code, delete
the opt-out marker, set `ignore`, and write the buffer (if any) verbatim
to the sink. -/
def GzipResponseWriter.startPlain (w : GzipResponseWriter) :
    GzipResponseWriter × Option GoError :=
  let w1 := if w.code ≠ 0 then { sinkWriteHeader w w.code with code := 0 } else w
  let w2 := { w1 with header := hdel w1.header HeaderNoCompression, ignore := true }
  if w2.buf.length = 0 then (w2, none)
  else
    let r := sinkWrite w2 w2.buf
    let e := if r.2.2 = none ∧ r.2.1 < w2.buf.length then some ioErrShortWrite else r.2.2
    ({ r.1 with buf := [] }, e)

/-- The tail of `Write`'s plain branch (gzip.go:143-151): commit plain,
then forward the remainder, returning `len(b)` on success. -/
def plainPath (w : GzipResponseWriter) (remain : List Nat) (blen : Nat) :
    GzipResponseWriter × Nat × Option GoError :=
  let r := w.startPlain
  match r.2 with
  | some e => (r.1, 0, some e)
  | none =>
    if 0 < remain.length then
      let s := sinkWrite r.1 remain
      match s.2.2 with
      | some e => (s.1, 0, some e)
      | none => (s.1, blen, none)
    else (r.1, blen, none)

/-- The tail of `Write`'s gzip branch (gzip.go:129-137): commit compressed,
then forward the remainder through the compressor.  A non-empty remainder
forces a full (hence non-empty) buffer, so the compressor exists at the
`w.gw.Write(remain)` call; the `none` case is the (unreachable) nil
dereference. -/
def gzipPath (w : GzipResponseWriter) (remain : List Nat) (blen : Nat) :
    GzipResponseWriter × Nat × Option GoError :=
  let r := w.startGzip
  match r.2 with
  | some e => (r.1, 0, some e)
  | none =>
    if 0 < remain.length then
      match r.1.gw with
      | none => (r.1, 0, some nilPtrError)
      | some g =>
        let r2 := gwWrite g remain
        match r2.2.2 with
        | some e => ({ r.1 with gw := some r2.1 }, 0, some e)
        | none => ({ r.1 with gw := some r2.1 }, blen, none)
    else (r.1, blen, none)

/-- The undecided part of `Write` after buffering (gzip.go:103-151),
operating on the state with the buffer already extended. -/
def writeDecide (w1 : GzipResponseWriter) (remain : List Nat) (blen : Nat) :
    GzipResponseWriter × Nat × Option GoError :=
  let cl := (atoi (hget w1.header contentLength)).1
  let ct := hget w1.header contentType
  if cl = 0 ∨ ((w1.minSize : Int) ≤ cl ∧ (ct = "" ∨ w1.contentTypeFilter ct = true)) then
    if w1.buf.length < w1.minSize ∧ cl = 0 then (w1, blen, none)
    else if (w1.minSize : Int) ≤ cl ∨ w1.minSize ≤ w1.buf.length then
      let ct2 := if ct = "" then w1.detectContentType w1.buf else ct
      let w2 := if hasKey w1.header contentType then w1
                else { w1 with header := hset w1.header contentType ct2 }
      if w2.contentTypeFilter ct2 then gzipPath w2 remain blen
      else plainPath w2 remain blen
    else plainPath w1 remain blen
  else plainPath w1 remain blen

/-- `Write` (gzip.go:79-152). -/
def GzipResponseWriter.write (w : GzipResponseWriter) (b : List Nat) :
    GzipResponseWriter × Nat × Option GoError :=
  match w.gw with
  | some g =>
    let r := gwWrite g b
    ({ w with gw := some r.1 }, r.2.1, r.2.2)
  | none =>
    if w.ignore then sinkWrite w b
    else
      let toAdd := bufTake w b
      let w1 := { w with buf := w.buf ++ b.take toAdd }
      let remain := b.drop toAdd
      if (hvalues w1.header HeaderNoCompression).length = 0 ∧
         hget w1.header contentEncoding = "" ∧ hget w1.header contentRange = "" then
        writeDecide w1 remain b.length
      else
        plainPath w1 remain b.length

/-- `WriteHeader` (gzip.go:222-226): record only the first code. -/
def GzipResponseWriter.writeHeader (w : GzipResponseWriter) (c : Nat) : GzipResponseWriter :=
  if w.code = 0 then { w with code := c } else w

/-- `Close` (gzip.go:237-255). -/
def GzipResponseWriter.close (w : GzipResponseWriter) :
    GzipResponseWriter × Option GoError :=
  if w.ignore then (w, none)
  else
    match w.gw with
    | none =>
      let r := w.startPlain
      match r.2 with
      | none => (r.1, none)
      | some e => (r.1, some (wrapCloseError e))
    | some g => ({ w with gw := none, gwCloses := w.gwCloses + 1 }, g.closeErr)

/-- The trailing part of `Flush` (gzip.go:298-305): flush the compressor
if present, then the sink's own flusher (the sink is modelled as always
exposing one). -/
def flushTail (w : GzipResponseWriter) : GzipResponseWriter :=
  let w1 := match w.gw with
            | some g => { w with gw := some { g with flushes := g.flushes + 1 } }
            | none => w
  { w1 with sinkFlushes := w1.sinkFlushes + 1 }

/-- `Flush` (gzip.go:263-305).  Undecided with an empty buffer returns
immediately (skipping even the sink flush); undecided with a non-empty
buffer re-runs the eligibility test with `cl` defaulted to `minSize` and
commits; errors of the commit are discarded (the `http.Flusher` interface
cannot report them). -/
def GzipResponseWriter.flushOp (w : GzipResponseWriter) : GzipResponseWriter :=
  if w.gw = none ∧ w.ignore = false then
    if w.buf.length = 0 then w
    else
      let cl := (atoi (hget w.header contentLength)).1
      let ct := hget w.header contentType
      let ce := hget w.header contentEncoding
      let cr := hget w.header contentRange
      let ct1 := if ct = "" then w.detectContentType w.buf else ct
      let w1 := if ct = "" ∧ hasKey w.header contentType = false
                then { w with header := hset w.header contentType ct1 } else w
      let cl1 : Int := if cl = 0 then (w1.minSize : Int) else cl
      let w2 :=
        if (hvalues w1.header HeaderNoCompression).length = 0 ∧ ce = "" ∧ cr = "" ∧
           (w1.minSize : Int) ≤ cl1 ∧ w1.contentTypeFilter ct1 = true then
          (w1.startGzip).1
        else (w1.startPlain).1
      flushTail w2
  else flushTail w

/-- A fresh writer as `NewWrapper` builds it per request (gzip.go:361-370):
empty truncated buffer, no pending code, undecided.  The sink behaves
compliantly (empty scripts) unless a theorem overrides the scripts. -/
def newWriter (ms : Nat) (filt : String → Bool) (det : List Nat → String)
    (kar : Bool) (hdr : Headers) : GzipResponseWriter :=
  { header := hdr, sinkTrace := [], sinkScript := [], sinkFlushes := 0,
    gwScript := [], gwCloseErr := none, gwCloses := 0, gw := none,
    code := 0, minSize := ms, buf := [], ignore := false,
    keepAcceptRanges := kar, contentTypeFilter := filt, detectContentType := det }

/-- Writes only, state component (`Write` return values dropped, as a
handler that ignores errors would). -/
def writeAll (w : GzipResponseWriter) (bs : List (List Nat)) : GzipResponseWriter :=
  bs.foldl (fun w b => (w.write b).1) w

/-- An action the handler (or the wrapper, for `close`) can perform on the
interceptor. `setHeader` models the handler mutating the response headers
between calls. -/
inductive HandlerOp where
  | write (b : List Nat)
  | writeHeader (c : Nat)
  | flush
  | close
  | setHeader (k v : String)

/-- Run one handler action. -/
def runOp (w : GzipResponseWriter) : HandlerOp → GzipResponseWriter
  | .write b => (w.write b).1
  | .writeHeader c => w.writeHeader c
  | .flush => w.flushOp
  | .close => (w.close).1
  | .setHeader k v => { w with header := hset w.header k v }

/-- Run a sequence of handler actions. -/
def runOps (w : GzipResponseWriter) (ops : List HandlerOp) : GzipResponseWriter :=
  ops.foldl runOp w

/-! ## Encoding-preference gate (`acceptsGzip`, `parseCoding`, `parseEncodingGzip`)

Go string functions are modelled on `List Char`.  `strings.TrimSpace` /
`strings.ToLower` are modelled for ASCII (the only characters these
comparisons can distinguish); `strconv.ParseFloat` is modelled as an exact
decimal/exponent parser into `ℚ`, returning `0` on a syntax error exactly
as `ParseFloat` does (hex floats, `Inf`/`NaN` and digit underscores are
not modelled). -/

/-- Go `unicode.IsSpace` restricted to ASCII. -/
def isGoSpace (c : Char) : Bool :=
  c = ' ' ∨ c = '\t' ∨ c = '\n' ∨ c = '\x0b' ∨ c = '\x0c' ∨ c = '\r'

/-- `strings.TrimSpace`. -/
def goTrim (s : List Char) : List Char :=
  ((s.dropWhile isGoSpace).reverse.dropWhile isGoSpace).reverse

/-- ASCII lower-casing of one character. -/
def goToLowerChar (c : Char) : Char :=
  if 'A' ≤ c ∧ c ≤ 'Z' then Char.ofNat (c.toNat + 32) else c

/-- `strings.ToLower` (ASCII). -/
def goToLower (s : List Char) : List Char := s.map goToLowerChar

/-- `strings.HasPrefix s p` (arguments: pattern, then string). -/
def goStartsWith : List Char → List Char → Bool
  | [], _ => true
  | _, [] => false
  | p :: pt, c :: ct => p = c && goStartsWith pt ct

/-- `strings.Split` for a one-character separator; always returns at least
one (possibly empty) chunk, like Go. -/
def splitOnChar (sep : Char) : List Char → List (List Char)
  | [] => [[]]
  | c :: t =>
    if c = sep then [] :: splitOnChar sep t
    else
      match splitOnChar sep t with
      | [] => [[c]]
      | h :: r => (c :: h) :: r

/-- Value of a digit run. -/
def natOfDigits (ds : List Char) : Nat :=
  ds.foldl (fun a c => a * 10 + (c.toNat - '0'.toNat)) 0

/-- Mantissa of a float literal: `digits[.digits]` or `.digits`; returns
the value and the unconsumed rest. -/
def parseMantissa (s : List Char) : Option (ℚ × List Char) :=
  let ip := s.takeWhile Char.isDigit
  let r1 := s.dropWhile Char.isDigit
  match r1 with
  | '.' :: r2 =>
    let fp := r2.takeWhile Char.isDigit
    let r3 := r2.dropWhile Char.isDigit
    if ip = [] ∧ fp = [] then none
    else some ((natOfDigits ip : ℚ) + (natOfDigits fp : ℚ) / 10 ^ fp.length, r3)
  | _ => if ip = [] then none else some ((natOfDigits ip : ℚ), r1)

/-- Optional exponent suffix `(e|E)[sign]digits`; must consume the rest. -/
def parseExpPart (b : ℚ) : List Char → Option ℚ
  | [] => some b
  | c :: t =>
    if c = 'e' ∨ c = 'E' then
      let st : Bool × List Char :=
        match t with
        | '-' :: r => (true, r)
        | '+' :: r => (false, r)
        | r => (false, r)
      if st.2 ≠ [] ∧ st.2.all Char.isDigit then
        some (if st.1 then b / 10 ^ natOfDigits st.2 else b * 10 ^ natOfDigits st.2)
      else none
    else none

/-- `strconv.ParseFloat` model: the parsed value, or `0` on a syntax error
(which is also what `ParseFloat` returns alongside the error). -/
def goParseFloat (s : String) : ℚ :=
  match s.data with
  | [] => 0
  | cs =>
    let st : Bool × List Char :=
      match cs with
      | '-' :: r => (true, r)
      | '+' :: r => (false, r)
      | r => (false, r)
    match parseMantissa st.2 with
    | none => 0
    | some mr =>
      match parseExpPart mr.1 mr.2 with
      | none => 0
      | some q => if st.1 then -q else q

/-- The in-range clamp applied to an explicit qvalue (gzip.go:652-656). -/
def clampGo (q : ℚ) : ℚ := if q < 0 then 0 else if q > 1 then 1 else q

/-- The characters `q=`. -/
def qeq : List Char := ['q', '=']

/-- The qvalue one `;`-part of a coding contributes (gzip.go:644-657 for
`n > 0`): reset to the default `1.0`, overwritten by a parsed, clamped
value when the trimmed part starts with `q=`. -/
def pcQ (p : List Char) : ℚ :=
  let part := goTrim p
  if goStartsWith qeq part then clampGo (goParseFloat (String.mk (part.drop 2))) else 1

/-- The `n > 0` iterations of the loop in `parseCoding`: each iteration
resets `qvalue` before inspecting its part, so only the last part's
contribution survives. -/
def pcLoop : List (List Char) → ℚ → ℚ
  | [], q => q
  | p :: t, _ => pcLoop t (pcQ p)

/-- `parseCoding` (gzip.go:642-665): the coding name (trimmed, lowered
first `;`-part) and the final qvalue.  The `error` result is not modelled:
`acceptsGzip`'s call site discards it. -/
def parseCoding (s : String) : String × ℚ :=
  match splitOnChar ';' s.data with
  | [] => ("", 1)
  | p0 :: rest => (String.mk (goToLower (goTrim p0)), pcLoop rest 1)

/-- The loop of `parseEncodingGzip` (gzip.go:597-611): scan comma-chunks,
return the qvalue of the first chunk whose coding is `gzip`, else `0`.
The loop is encoded structurally over a fuel argument so that it reduces
in the kernel; every iteration consumes at least one character, so fuel
equal to the string length (as `parseEncodingGzip` supplies) makes the
exhausted-fuel arm unreachable. -/
def pegLoopF : Nat → List Char → ℚ
  | _, [] => 0
  | 0, _ :: _ => 0
  | fuel + 1, c :: t =>
    let stop := ((c :: t).findIdx? (fun x => x = ',')).getD (c :: t).length
    let r := parseCoding (String.mk ((c :: t).take stop))
    if r.1 = "gzip" then r.2
    else if stop = (c :: t).length then 0
    else pegLoopF fuel ((c :: t).drop (stop + 1))

/-- `parseEncodingGzip` (gzip.go:594-613). -/
def parseEncodingGzip (s : String) : ℚ := pegLoopF (goTrim s.data).length (goTrim s.data)

/-- The part of an inbound request the gate consults: the method and the
`Accept-Encoding` header value (`r.Header.Get(acceptEncoding)`). -/
structure Request where
  method : String
  acceptEnc : String

/-- `acceptsGzip` (gzip.go:564-570): not a HEAD request, and the gzip
qvalue is strictly positive. -/
def acceptsGzip (r : Request) : Bool :=
  (r.method != "HEAD") && decide ((0 : ℚ) < parseEncodingGzip r.acceptEnc)

/-- The coding name of one comma-entry, per the spec's words. -/
def codingName (e : List Char) : String :=
  match splitOnChar ';' e with
  | [] => ""
  | p :: _ => String.mk (goToLower (goTrim p))

/-- Modelled from the spec (claim C8's reading of §4.3): the weight of an
entry is "its explicit q annotation clamped into [0,1], or 1.0 when no q
annotation is present" — i.e. the first `q=`-part, wherever it appears. -/
def claimCodingWeight (e : List Char) : ℚ :=
  match splitOnChar ';' e with
  | [] => 1
  | _ :: rest =>
    match (rest.map goTrim).filter (fun p => goStartsWith qeq p) with
    | [] => 1
    | q :: _ => clampGo (goParseFloat (String.mk (q.drop 2)))

/-- Modelled from the spec (claim C8's reading): the weight of the first
gzip entry of the comma-separated list, `0` when there is none. -/
def claimGzipWeight (s : String) : ℚ :=
  match (splitOnChar ',' (goTrim s.data)).find? (fun e => codingName e == "gzip") with
  | none => 0
  | some e => claimCodingWeight e

/-- Amended per-entry weight: the contribution of the *last* `;`-part
(`1.0` when the entry has no parts beyond the coding name). -/
def lastPartWeight (e : List Char) : ℚ :=
  match splitOnChar ';' e with
  | [] => 1
  | _ :: rest => ((rest.getLast?).map pcQ).getD 1

/-- Amended gate weight: same scan as the source loop (same fuel
encoding), with the weight of an entry taken from its last `;`-part. -/
def agLoopF : Nat → List Char → ℚ
  | _, [] => 0
  | 0, _ :: _ => 0
  | fuel + 1, c :: t =>
    let stop := ((c :: t).findIdx? (fun x => x = ',')).getD (c :: t).length
    let e := (c :: t).take stop
    if codingName e = "gzip" then lastPartWeight e
    else if stop = (c :: t).length then 0
    else agLoopF fuel ((c :: t).drop (stop + 1))

/-- Amended gate weight over the full header value. -/
def amendedGzipWeight (s : String) : ℚ := agLoopF (goTrim s.data).length (goTrim s.data)

/-! ## Header lemmas -/

@[simp]
theorem hvalues_cons (e : String × List String) (t : Headers) (k : String) :
    hvalues (e :: t) k = if e.1 = k then e.2 else hvalues t k := rfl

@[simp]
theorem hasKey_cons (e : String × List String) (t : Headers) (k : String) :
    hasKey (e :: t) k = (decide (e.1 = k) || hasKey t k) := rfl

theorem hdel_cons (e : String × List String) (t : Headers) (k : String) :
    hdel (e :: t) k = if e.1 = k then hdel t k else e :: hdel t k := by
  simp only [hdel, List.filter_cons]
  by_cases h : e.1 = k <;> simp [h]

@[simp]
theorem hvalues_hdel_self (h : Headers) (k : String) : hvalues (hdel h k) k = [] := by
  induction h with
  | nil => rfl
  | cons e t ih =>
    rw [hdel_cons]
    by_cases hk : e.1 = k <;> simp [hk, ih]

theorem hvalues_hdel_ne (h : Headers) {k' k : String} (hne : k' ≠ k) :
    hvalues (hdel h k') k = hvalues h k := by
  induction h with
  | nil => rfl
  | cons e t ih =>
    rw [hdel_cons]
    by_cases hk : e.1 = k'
    · have hek : e.1 ≠ k := by rw [hk]; exact hne
      simp [hk, hek, hne, ih]
    · by_cases hk2 : e.1 = k <;> simp [hk, hk2, hne, Ne.symm hne, ih]

@[simp]
theorem hvalues_hset_self (h : Headers) (k v : String) : hvalues (hset h k v) k = [v] := by
  simp [hset]

theorem hvalues_hset_ne (h : Headers) {k' k : String} (hne : k' ≠ k) (v : String) :
    hvalues (hset h k' v) k = hvalues h k := by
  simp [hset, hne, hvalues_hdel_ne h hne]

@[simp]
theorem hget_hset_self (h : Headers) (k v : String) : hget (hset h k v) k = v := by
  simp [hget]

theorem hget_hset_ne (h : Headers) {k' k : String} (hne : k' ≠ k) (v : String) :
    hget (hset h k' v) k = hget h k := by
  simp [hget, hvalues_hset_ne h hne]

theorem hget_hdel_ne (h : Headers) {k' k : String} (hne : k' ≠ k) :
    hget (hdel h k') k = hget h k := by
  simp [hget, hvalues_hdel_ne h hne]

@[simp]
theorem hasKey_hdel_self (h : Headers) (k : String) : hasKey (hdel h k) k = false := by
  induction h with
  | nil => rfl
  | cons e t ih =>
    rw [hdel_cons]
    by_cases hk : e.1 = k <;> simp [hk, ih]

theorem hasKey_hdel_ne (h : Headers) {k' k : String} (hne : k' ≠ k) :
    hasKey (hdel h k') k = hasKey h k := by
  induction h with
  | nil => rfl
  | cons e t ih =>
    rw [hdel_cons]
    by_cases hk : e.1 = k'
    · have hek : e.1 ≠ k := by rw [hk]; exact hne
      simp [hk, hek, hne, ih]
    · by_cases hk2 : e.1 = k <;> simp [hk, hk2, hne, Ne.symm hne, ih]

theorem hasKey_hset_ne (h : Headers) {k' k : String} (hne : k' ≠ k) (v : String) :
    hasKey (hset h k' v) k = hasKey h k := by
  simp [hset, hne, hasKey_hdel_ne h hne]

/-! ## Trace lemmas -/

@[simp]
theorem sinkBytes_append (t1 t2 : List SinkEv) :
    sinkBytes (t1 ++ t2) = sinkBytes t1 ++ sinkBytes t2 := by
  induction t1 with
  | nil => rfl
  | cons e t ih => cases e <;> simp [sinkBytes, ih]

/-! ## Projection lemmas for the downstream operations -/

@[simp]
theorem sinkWrite_gw (w : GzipResponseWriter) (b : List Nat) :
    (sinkWrite w b).1.gw = w.gw := by
  unfold sinkWrite; split <;> rfl

@[simp]
theorem sinkWrite_ignore (w : GzipResponseWriter) (b : List Nat) :
    (sinkWrite w b).1.ignore = w.ignore := by
  unfold sinkWrite; split <;> rfl

@[simp]
theorem sinkWrite_header (w : GzipResponseWriter) (b : List Nat) :
    (sinkWrite w b).1.header = w.header := by
  unfold sinkWrite; split <;> rfl

@[simp]
theorem sinkWrite_buf (w : GzipResponseWriter) (b : List Nat) :
    (sinkWrite w b).1.buf = w.buf := by
  unfold sinkWrite; split <;> rfl

@[simp]
theorem sinkWrite_minSize (w : GzipResponseWriter) (b : List Nat) :
    (sinkWrite w b).1.minSize = w.minSize := by
  unfold sinkWrite; split <;> rfl

@[simp]
theorem sinkWrite_code (w : GzipResponseWriter) (b : List Nat) :
    (sinkWrite w b).1.code = w.code := by
  unfold sinkWrite; split <;> rfl

@[simp]
theorem sinkWrite_gwCloses (w : GzipResponseWriter) (b : List Nat) :
    (sinkWrite w b).1.gwCloses = w.gwCloses := by
  unfold sinkWrite; split <;> rfl

@[simp]
theorem sinkWrite_gwScript (w : GzipResponseWriter) (b : List Nat) :
    (sinkWrite w b).1.gwScript = w.gwScript := by
  unfold sinkWrite; split <;> rfl

@[simp]
theorem sinkWrite_gwCloseErr (w : GzipResponseWriter) (b : List Nat) :
    (sinkWrite w b).1.gwCloseErr = w.gwCloseErr := by
  unfold sinkWrite; split <;> rfl

@[simp]
theorem sinkWrite_filter (w : GzipResponseWriter) (b : List Nat) :
    (sinkWrite w b).1.contentTypeFilter = w.contentTypeFilter := by
  unfold sinkWrite; split <;> rfl

@[simp]
theorem sinkWrite_detect (w : GzipResponseWriter) (b : List Nat) :
    (sinkWrite w b).1.detectContentType = w.detectContentType := by
  unfold sinkWrite; split <;> rfl

@[simp]
theorem sinkWrite_sinkFlushes (w : GzipResponseWriter) (b : List Nat) :
    (sinkWrite w b).1.sinkFlushes = w.sinkFlushes := by
  unfold sinkWrite; split <;> rfl

@[simp]
theorem sinkWrite_keepAR (w : GzipResponseWriter) (b : List Nat) :
    (sinkWrite w b).1.keepAcceptRanges = w.keepAcceptRanges := by
  unfold sinkWrite; split <;> rfl

/-- A compliant sink (empty script) accepts every write in full. -/
theorem sinkWrite_nilScript (w : GzipResponseWriter) (b : List Nat) (h : w.sinkScript = []) :
    sinkWrite w b = ({ w with sinkTrace := w.sinkTrace ++ [.bytesEv b] }, b.length, none) := by
  unfold sinkWrite; rw [h]

@[simp]
theorem gwWrite_flushes (g : GzipWriter) (b : List Nat) :
    (gwWrite g b).1.flushes = g.flushes := by
  unfold gwWrite; split <;> rfl

@[simp]
theorem gwWrite_closeErr (g : GzipWriter) (b : List Nat) :
    (gwWrite g b).1.closeErr = g.closeErr := by
  unfold gwWrite; split <;> rfl

/-- A compliant compressor (empty script) accepts every write in full. -/
theorem gwWrite_nilScript (g : GzipWriter) (b : List Nat) (h : g.script = []) :
    gwWrite g b = ({ g with input := g.input ++ b }, b.length, none) := by
  unfold gwWrite; rw [h]

/-! ## startPlain lemmas -/

@[simp]
theorem startPlain_ignore (w : GzipResponseWriter) : (w.startPlain).1.ignore = true := by
  simp only [GzipResponseWriter.startPlain, sinkWriteHeader]
  split_ifs <;> simp

@[simp]
theorem startPlain_gw (w : GzipResponseWriter) : (w.startPlain).1.gw = w.gw := by
  simp only [GzipResponseWriter.startPlain, sinkWriteHeader]
  split_ifs <;> simp

@[simp]
theorem startPlain_buf (w : GzipResponseWriter) : (w.startPlain).1.buf = [] := by
  simp only [GzipResponseWriter.startPlain, sinkWriteHeader]
  split_ifs with h1 h2 h3 h4 <;>
    simp_all [List.length_eq_zero]

@[simp]
theorem startPlain_code (w : GzipResponseWriter) : (w.startPlain).1.code = 0 := by
  simp only [GzipResponseWriter.startPlain, sinkWriteHeader]
  split_ifs <;> simp_all [not_ne_iff]

@[simp]
theorem startPlain_header (w : GzipResponseWriter) :
    (w.startPlain).1.header = hdel w.header HeaderNoCompression := by
  simp only [GzipResponseWriter.startPlain, sinkWriteHeader]
  split_ifs <;> simp

@[simp]
theorem startPlain_minSize (w : GzipResponseWriter) : (w.startPlain).1.minSize = w.minSize := by
  simp only [GzipResponseWriter.startPlain, sinkWriteHeader]
  split_ifs <;> simp

@[simp]
theorem startPlain_gwCloses (w : GzipResponseWriter) : (w.startPlain).1.gwCloses = w.gwCloses := by
  simp only [GzipResponseWriter.startPlain, sinkWriteHeader]
  split_ifs <;> simp

@[simp]
theorem startPlain_gwScript (w : GzipResponseWriter) : (w.startPlain).1.gwScript = w.gwScript := by
  simp only [GzipResponseWriter.startPlain, sinkWriteHeader]
  split_ifs <;> simp

@[simp]
theorem startPlain_gwCloseErr (w : GzipResponseWriter) :
    (w.startPlain).1.gwCloseErr = w.gwCloseErr := by
  simp only [GzipResponseWriter.startPlain, sinkWriteHeader]
  split_ifs <;> simp

@[simp]
theorem startPlain_filter (w : GzipResponseWriter) :
    (w.startPlain).1.contentTypeFilter = w.contentTypeFilter := by
  simp only [GzipResponseWriter.startPlain, sinkWriteHeader]
  split_ifs <;> simp

@[simp]
theorem startPlain_detect (w : GzipResponseWriter) :
    (w.startPlain).1.detectContentType = w.detectContentType := by
  simp only [GzipResponseWriter.startPlain, sinkWriteHeader]
  split_ifs <;> simp

@[simp]
theorem startPlain_sinkFlushes (w : GzipResponseWriter) :
    (w.startPlain).1.sinkFlushes = w.sinkFlushes := by
  simp only [GzipResponseWriter.startPlain, sinkWriteHeader]
  split_ifs <;> simp

@[simp]
theorem startPlain_keepAR (w : GzipResponseWriter) :
    (w.startPlain).1.keepAcceptRanges = w.keepAcceptRanges := by
  simp only [GzipResponseWriter.startPlain, sinkWriteHeader]
  split_ifs <;> simp

/-- With a compliant sink, `startPlain` succeeds, keeps the script empty,
and delivers exactly the buffered bytes to the sink. -/
theorem startPlain_ok (w : GzipResponseWriter) (hs : w.sinkScript = []) :
    (w.startPlain).2 = none ∧ (w.startPlain).1.sinkScript = [] ∧
    sinkBytes (w.startPlain).1.sinkTrace = sinkBytes w.sinkTrace ++ w.buf := by
  simp only [GzipResponseWriter.startPlain, sinkWriteHeader]
  split_ifs with h1 h2 h3 h4 <;>
    simp_all [sinkWrite_nilScript, sinkBytes, List.length_eq_zero]

/-! ## startGzip lemmas -/

@[simp]
theorem startGzip_ignore (w : GzipResponseWriter) : (w.startGzip).1.ignore = w.ignore := by
  simp only [GzipResponseWriter.startGzip, sinkWriteHeader]
  split_ifs <;> simp

@[simp]
theorem startGzip_buf (w : GzipResponseWriter) : (w.startGzip).1.buf = [] := by
  simp only [GzipResponseWriter.startGzip, sinkWriteHeader]
  split_ifs <;> simp_all [List.length_eq_zero]

@[simp]
theorem startGzip_code (w : GzipResponseWriter) : (w.startGzip).1.code = 0 := by
  simp only [GzipResponseWriter.startGzip, sinkWriteHeader]
  split_ifs <;> simp_all [not_ne_iff]

@[simp]
theorem startGzip_minSize (w : GzipResponseWriter) : (w.startGzip).1.minSize = w.minSize := by
  simp only [GzipResponseWriter.startGzip, sinkWriteHeader]
  split_ifs <;> simp

@[simp]
theorem startGzip_gwCloses (w : GzipResponseWriter) : (w.startGzip).1.gwCloses = w.gwCloses := by
  simp only [GzipResponseWriter.startGzip, sinkWriteHeader]
  split_ifs <;> simp

@[simp]
theorem startGzip_filter (w : GzipResponseWriter) :
    (w.startGzip).1.contentTypeFilter = w.contentTypeFilter := by
  simp only [GzipResponseWriter.startGzip, sinkWriteHeader]
  split_ifs <;> simp

@[simp]
theorem startGzip_detect (w : GzipResponseWriter) :
    (w.startGzip).1.detectContentType = w.detectContentType := by
  simp only [GzipResponseWriter.startGzip, sinkWriteHeader]
  split_ifs <;> simp

@[simp]
theorem startGzip_sinkScript (w : GzipResponseWriter) :
    (w.startGzip).1.sinkScript = w.sinkScript := by
  simp only [GzipResponseWriter.startGzip, sinkWriteHeader]
  split_ifs <;> simp

@[simp]
theorem startGzip_sinkFlushes (w : GzipResponseWriter) :
    (w.startGzip).1.sinkFlushes = w.sinkFlushes := by
  simp only [GzipResponseWriter.startGzip, sinkWriteHeader]
  split_ifs <;> simp

@[simp]
theorem startGzip_sinkBytes (w : GzipResponseWriter) :
    sinkBytes (w.startGzip).1.sinkTrace = sinkBytes w.sinkTrace := by
  simp only [GzipResponseWriter.startGzip, sinkWriteHeader]
  split_ifs <;> simp [sinkBytes]

/-- The header rewrite of `startGzip`. -/
theorem startGzip_headerEq (w : GzipResponseWriter) :
    (w.startGzip).1.header =
      (if w.keepAcceptRanges then hdel (hset w.header contentEncoding "gzip") contentLength
       else hdel (hdel (hset w.header contentEncoding "gzip") contentLength) acceptRanges) := by
  simp only [GzipResponseWriter.startGzip, sinkWriteHeader]
  split_ifs <;> simp

theorem startGzip_header_ce (w : GzipResponseWriter) :
    hget (w.startGzip).1.header contentEncoding = "gzip" := by
  rw [startGzip_headerEq]
  split_ifs
  · rw [hget_hdel_ne _ (by decide)]
    simp
  · rw [hget_hdel_ne _ (by decide), hget_hdel_ne _ (by decide)]
    simp

theorem startGzip_header_cl (w : GzipResponseWriter) :
    hasKey (w.startGzip).1.header contentLength = false := by
  rw [startGzip_headerEq]
  split_ifs
  · simp
  · rw [hasKey_hdel_ne _ (by decide)]
    simp

theorem startGzip_header_marker (w : GzipResponseWriter) :
    hvalues (w.startGzip).1.header HeaderNoCompression =
      hvalues w.header HeaderNoCompression := by
  rw [startGzip_headerEq]
  split_ifs
  · rw [hvalues_hdel_ne _ (by decide), hvalues_hset_ne _ (by decide)]
  · rw [hvalues_hdel_ne _ (by decide), hvalues_hdel_ne _ (by decide),
      hvalues_hset_ne _ (by decide)]

/-- With a non-empty buffer and a compliant compressor, `startGzip`
constructs the compressor, feeds it the whole buffer, and succeeds. -/
theorem startGzip_gw_of_nonempty (w : GzipResponseWriter) (hb : w.buf ≠ [])
    (hg : w.gwScript = []) :
    (w.startGzip).1.gw =
      some { input := w.buf, script := [], flushes := 0, closeErr := w.gwCloseErr } ∧
    (w.startGzip).2 = none := by
  simp only [GzipResponseWriter.startGzip, sinkWriteHeader]
  have hb' : 0 < w.buf.length := List.length_pos.mpr hb
  split_ifs <;>
    simp_all [gwWrite_nilScript]

/-- With an empty buffer, `startGzip` does not construct the compressor
(the quirk state: headers rewritten, but `gw` still absent). -/
theorem startGzip_gw_of_empty (w : GzipResponseWriter) (hb : w.buf = []) :
    (w.startGzip).1.gw = w.gw ∧ (w.startGzip).2 = none := by
  simp only [GzipResponseWriter.startGzip, sinkWriteHeader]
  split_ifs <;> simp_all

/-- With a non-empty buffer, `startGzip` always constructs the compressor,
whatever the compressor's script. -/
theorem startGzip_gw_isSome (w : GzipResponseWriter) (hb : w.buf ≠ []) :
    ∃ g, (w.startGzip).1.gw = some g := by
  simp only [GzipResponseWriter.startGzip, sinkWriteHeader]
  have hb' : 0 < w.buf.length := List.length_pos.mpr hb
  split_ifs <;> simp_all

/-! ## plainPath / gzipPath lemmas -/

@[simp]
theorem plainPath_ignore (w : GzipResponseWriter) (remain : List Nat) (blen : Nat) :
    (plainPath w remain blen).1.ignore = true := by
  simp only [plainPath]
  repeat' split
  all_goals simp

@[simp]
theorem plainPath_gw (w : GzipResponseWriter) (remain : List Nat) (blen : Nat) :
    (plainPath w remain blen).1.gw = w.gw := by
  simp only [plainPath]
  repeat' split
  all_goals simp

@[simp]
theorem plainPath_buf (w : GzipResponseWriter) (remain : List Nat) (blen : Nat) :
    (plainPath w remain blen).1.buf = [] := by
  simp only [plainPath]
  repeat' split
  all_goals simp

@[simp]
theorem plainPath_code (w : GzipResponseWriter) (remain : List Nat) (blen : Nat) :
    (plainPath w remain blen).1.code = 0 := by
  simp only [plainPath]
  repeat' split
  all_goals simp

@[simp]
theorem plainPath_header (w : GzipResponseWriter) (remain : List Nat) (blen : Nat) :
    (plainPath w remain blen).1.header = hdel w.header HeaderNoCompression := by
  simp only [plainPath]
  repeat' split
  all_goals simp

@[simp]
theorem plainPath_minSize (w : GzipResponseWriter) (remain : List Nat) (blen : Nat) :
    (plainPath w remain blen).1.minSize = w.minSize := by
  simp only [plainPath]
  repeat' split
  all_goals simp

@[simp]
theorem plainPath_gwCloses (w : GzipResponseWriter) (remain : List Nat) (blen : Nat) :
    (plainPath w remain blen).1.gwCloses = w.gwCloses := by
  simp only [plainPath]
  repeat' split
  all_goals simp

@[simp]
theorem plainPath_filter (w : GzipResponseWriter) (remain : List Nat) (blen : Nat) :
    (plainPath w remain blen).1.contentTypeFilter = w.contentTypeFilter := by
  simp only [plainPath]
  repeat' split
  all_goals simp

@[simp]
theorem plainPath_detect (w : GzipResponseWriter) (remain : List Nat) (blen : Nat) :
    (plainPath w remain blen).1.detectContentType = w.detectContentType := by
  simp only [plainPath]
  repeat' split
  all_goals simp

@[simp]
theorem plainPath_sinkFlushes (w : GzipResponseWriter) (remain : List Nat) (blen : Nat) :
    (plainPath w remain blen).1.sinkFlushes = w.sinkFlushes := by
  simp only [plainPath]
  repeat' split
  all_goals simp

/-- With a compliant sink, the plain commit delivers the buffer and the
remainder, reports `len(b)` accepted and no error. -/
theorem plainPath_ok (w : GzipResponseWriter) (remain : List Nat) (blen : Nat)
    (hs : w.sinkScript = []) :
    (plainPath w remain blen).2.2 = none ∧ (plainPath w remain blen).2.1 = blen ∧
    (plainPath w remain blen).1.sinkScript = [] ∧
    sinkBytes (plainPath w remain blen).1.sinkTrace =
      sinkBytes w.sinkTrace ++ w.buf ++ remain := by
  obtain ⟨h1, h2, h3⟩ := startPlain_ok w hs
  simp only [plainPath]
  rw [h1]
  split_ifs with hr
  · rw [sinkWrite_nilScript _ _ h2]
    simp [h2, h3, sinkBytes]
  · have : remain = [] := by
      rcases remain with _ | ⟨x, xs⟩
      · rfl
      · exact absurd (by simp) hr
    simp [this, h2, h3]

@[simp]
theorem gzipPath_ignore (w : GzipResponseWriter) (remain : List Nat) (blen : Nat) :
    (gzipPath w remain blen).1.ignore = w.ignore := by
  simp only [gzipPath]
  repeat' split
  all_goals simp

@[simp]
theorem gzipPath_buf (w : GzipResponseWriter) (remain : List Nat) (blen : Nat) :
    (gzipPath w remain blen).1.buf = [] := by
  simp only [gzipPath]
  repeat' split
  all_goals simp

@[simp]
theorem gzipPath_code (w : GzipResponseWriter) (remain : List Nat) (blen : Nat) :
    (gzipPath w remain blen).1.code = 0 := by
  simp only [gzipPath]
  repeat' split
  all_goals simp

@[simp]
theorem gzipPath_minSize (w : GzipResponseWriter) (remain : List Nat) (blen : Nat) :
    (gzipPath w remain blen).1.minSize = w.minSize := by
  simp only [gzipPath]
  repeat' split
  all_goals simp

@[simp]
theorem gzipPath_gwCloses (w : GzipResponseWriter) (remain : List Nat) (blen : Nat) :
    (gzipPath w remain blen).1.gwCloses = w.gwCloses := by
  simp only [gzipPath]
  repeat' split
  all_goals simp

@[simp]
theorem gzipPath_sinkFlushes (w : GzipResponseWriter) (remain : List Nat) (blen : Nat) :
    (gzipPath w remain blen).1.sinkFlushes = w.sinkFlushes := by
  simp only [gzipPath]
  repeat' split
  all_goals simp

@[simp]
theorem gzipPath_sinkScript (w : GzipResponseWriter) (remain : List Nat) (blen : Nat) :
    (gzipPath w remain blen).1.sinkScript = w.sinkScript := by
  simp only [gzipPath]
  repeat' split
  all_goals simp

@[simp]
theorem gzipPath_sinkBytes (w : GzipResponseWriter) (remain : List Nat) (blen : Nat) :
    sinkBytes (gzipPath w remain blen).1.sinkTrace = sinkBytes w.sinkTrace := by
  simp only [gzipPath]
  repeat' split
  all_goals simp

theorem gzipPath_header_ce (w : GzipResponseWriter) (remain : List Nat) (blen : Nat) :
    hget (gzipPath w remain blen).1.header contentEncoding = "gzip" := by
  simp only [gzipPath]
  repeat' split
  all_goals simp [startGzip_header_ce]

theorem gzipPath_header_cl (w : GzipResponseWriter) (remain : List Nat) (blen : Nat) :
    hasKey (gzipPath w remain blen).1.header contentLength = false := by
  simp only [gzipPath]
  repeat' split
  all_goals simp [startGzip_header_cl]

theorem gzipPath_header_marker (w : GzipResponseWriter) (remain : List Nat) (blen : Nat) :
    hvalues (gzipPath w remain blen).1.header HeaderNoCompression =
      hvalues w.header HeaderNoCompression := by
  simp only [gzipPath]
  repeat' split
  all_goals simp [startGzip_header_marker]

/-- With a non-empty buffer and a compliant compressor, the compressed
commit feeds buffer-then-remainder to the compressor and succeeds. -/
theorem gzipPath_gw_ok (w : GzipResponseWriter) (remain : List Nat) (blen : Nat)
    (hb : w.buf ≠ []) (hg : w.gwScript = []) :
    (gzipPath w remain blen).1.gw =
      some { input := w.buf ++ remain, script := [], flushes := 0, closeErr := w.gwCloseErr } ∧
    (gzipPath w remain blen).2.2 = none ∧ (gzipPath w remain blen).2.1 = blen := by
  obtain ⟨h1, h2⟩ := startGzip_gw_of_nonempty w hb hg
  simp only [gzipPath]
  rw [h2]
  split_ifs with hr
  · simp [h1, gwWrite_nilScript]
  · have hre : remain = [] := by
      rcases remain with _ | ⟨x, xs⟩
      · rfl
      · exact absurd (by simp) hr
    simp [h1, hre]

/-- The quirk: empty buffer at the compressed commit, so the compressor is
never constructed; with an empty remainder the call still succeeds. -/
theorem gzipPath_quirk (w : GzipResponseWriter) (remain : List Nat) (blen : Nat)
    (hb : w.buf = []) (hr : remain = []) :
    (gzipPath w remain blen).1.gw = w.gw ∧ (gzipPath w remain blen).2.2 = none ∧
    (gzipPath w remain blen).2.1 = blen := by
  obtain ⟨h1, h2⟩ := startGzip_gw_of_empty w hb
  simp only [gzipPath]
  rw [h2]
  split_ifs with hcond
  · rw [hr] at hcond
    simp at hcond
  · simp [h1]

/-- With a non-empty buffer the compressed commit always leaves an active
compressor, whatever the scripts. -/
theorem gzipPath_gw_isSome (w : GzipResponseWriter) (remain : List Nat) (blen : Nat)
    (hb : w.buf ≠ []) : ∃ g, (gzipPath w remain blen).1.gw = some g := by
  obtain ⟨g0, hg0⟩ := startGzip_gw_isSome w hb
  simp only [gzipPath]
  split
  · exact ⟨g0, hg0⟩
  · split_ifs with hr
    · split
      · next hnone => exact absurd (hnone ▸ hg0) (by simp_all)
      · split <;> exact ⟨_, rfl⟩
    · exact ⟨g0, hg0⟩

/-! ## flushTail and write lemmas -/

@[simp]
theorem flushTail_ignore (w : GzipResponseWriter) : (flushTail w).ignore = w.ignore := by
  simp only [flushTail]
  split <;> rfl

@[simp]
theorem flushTail_buf (w : GzipResponseWriter) : (flushTail w).buf = w.buf := by
  simp only [flushTail]
  split <;> rfl

@[simp]
theorem flushTail_header (w : GzipResponseWriter) : (flushTail w).header = w.header := by
  simp only [flushTail]
  split <;> rfl

@[simp]
theorem flushTail_code (w : GzipResponseWriter) : (flushTail w).code = w.code := by
  simp only [flushTail]
  split <;> rfl

@[simp]
theorem flushTail_minSize (w : GzipResponseWriter) : (flushTail w).minSize = w.minSize := by
  simp only [flushTail]
  split <;> rfl

@[simp]
theorem flushTail_gwCloses (w : GzipResponseWriter) : (flushTail w).gwCloses = w.gwCloses := by
  simp only [flushTail]
  split <;> rfl

@[simp]
theorem flushTail_sinkFlushes (w : GzipResponseWriter) :
    (flushTail w).sinkFlushes = w.sinkFlushes + 1 := by
  simp only [flushTail]
  split <;> rfl

@[simp]
theorem flushTail_sinkTrace (w : GzipResponseWriter) : (flushTail w).sinkTrace = w.sinkTrace := by
  simp only [flushTail]
  split <;> rfl

theorem flushTail_gw_none (w : GzipResponseWriter) (h : w.gw = none) :
    (flushTail w).gw = none := by
  simp only [flushTail]
  split <;> simp_all

theorem flushTail_gw_some (w : GzipResponseWriter) (g : GzipWriter) (h : w.gw = some g) :
    (flushTail w).gw = some { g with flushes := g.flushes + 1 } := by
  simp only [flushTail]
  split <;> simp_all

/-- `Write` in committed-compressed mode forwards to the compressor. -/
theorem write_gwMode (w : GzipResponseWriter) (b : List Nat) (g : GzipWriter)
    (hgw : w.gw = some g) :
    w.write b =
      ({ w with gw := some (gwWrite g b).1 }, (gwWrite g b).2.1, (gwWrite g b).2.2) := by
  simp [GzipResponseWriter.write, hgw]

/-- `Write` in committed-plain mode forwards to the sink. -/
theorem write_ignoreMode (w : GzipResponseWriter) (b : List Nat)
    (hgw : w.gw = none) (hig : w.ignore = true) :
    w.write b = sinkWrite w b := by
  simp [GzipResponseWriter.write, hgw, hig]

/-- `Write` in the undecided state: buffer, then check the disabling
headers and decide. -/
theorem write_undecided (w : GzipResponseWriter) (b : List Nat)
    (hgw : w.gw = none) (hig : w.ignore = false) :
    w.write b =
      if (hvalues w.header HeaderNoCompression).length = 0 ∧
         hget w.header contentEncoding = "" ∧ hget w.header contentRange = "" then
        writeDecide { w with buf := w.buf ++ b.take (bufTake w b) } (b.drop (bufTake w b)) b.length
      else
        plainPath { w with buf := w.buf ++ b.take (bufTake w b) } (b.drop (bufTake w b)) b.length := by
  simp [GzipResponseWriter.write, hgw, hig]


/-! ## flushOp characterization -/

/-- The effective content type `Flush` tests (declared, else sniffed). -/
def flushCt1 (w : GzipResponseWriter) : String :=
  if hget w.header contentType = "" then w.detectContentType w.buf else hget w.header contentType

/-- The state after `Flush`'s conditional `Content-Type` set. -/
def flushW1 (w : GzipResponseWriter) : GzipResponseWriter :=
  if hget w.header contentType = "" ∧ hasKey w.header contentType = false then
    { w with header := hset w.header contentType (flushCt1 w) }
  else w

/-- The content length `Flush` tests (`minSize` assumed when absent). -/
def flushCl1 (w : GzipResponseWriter) : Int :=
  if (atoi (hget w.header contentLength)).1 = 0 then (w.minSize : Int)
  else (atoi (hget w.header contentLength)).1

@[simp]
theorem flushW1_buf (w : GzipResponseWriter) : (flushW1 w).buf = w.buf := by
  unfold flushW1; split <;> rfl

@[simp]
theorem flushW1_gw (w : GzipResponseWriter) : (flushW1 w).gw = w.gw := by
  unfold flushW1; split <;> rfl

@[simp]
theorem flushW1_ignore (w : GzipResponseWriter) : (flushW1 w).ignore = w.ignore := by
  unfold flushW1; split <;> rfl

@[simp]
theorem flushW1_gwScript (w : GzipResponseWriter) : (flushW1 w).gwScript = w.gwScript := by
  unfold flushW1; split <;> rfl

@[simp]
theorem flushW1_gwCloseErr (w : GzipResponseWriter) : (flushW1 w).gwCloseErr = w.gwCloseErr := by
  unfold flushW1; split <;> rfl

@[simp]
theorem flushW1_minSize (w : GzipResponseWriter) : (flushW1 w).minSize = w.minSize := by
  unfold flushW1; split <;> rfl

@[simp]
theorem flushW1_code (w : GzipResponseWriter) : (flushW1 w).code = w.code := by
  unfold flushW1; split <;> rfl

@[simp]
theorem flushW1_gwCloses (w : GzipResponseWriter) : (flushW1 w).gwCloses = w.gwCloses := by
  unfold flushW1; split <;> rfl

@[simp]
theorem flushW1_sinkFlushes (w : GzipResponseWriter) : (flushW1 w).sinkFlushes = w.sinkFlushes := by
  unfold flushW1; split <;> rfl

@[simp]
theorem flushW1_sinkScript (w : GzipResponseWriter) : (flushW1 w).sinkScript = w.sinkScript := by
  unfold flushW1; split <;> rfl

@[simp]
theorem flushW1_sinkTrace (w : GzipResponseWriter) : (flushW1 w).sinkTrace = w.sinkTrace := by
  unfold flushW1; split <;> rfl

theorem flushW1_marker (w : GzipResponseWriter) :
    hvalues (flushW1 w).header HeaderNoCompression = hvalues w.header HeaderNoCompression := by
  unfold flushW1
  split
  · exact hvalues_hset_ne _ (by decide) _
  · rfl

/-- `Flush` on an undecided writer with a non-empty buffer: decide with
the defaulted length and the effective type, then forward the flush. -/
theorem flushOp_eq (w : GzipResponseWriter) (hgw : w.gw = none) (hig : w.ignore = false)
    (hb : ¬ w.buf.length = 0) :
    w.flushOp =
      flushTail
        (if (hvalues (flushW1 w).header HeaderNoCompression).length = 0 ∧
            hget w.header contentEncoding = "" ∧ hget w.header contentRange = "" ∧
            (w.minSize : Int) ≤ flushCl1 w ∧ w.contentTypeFilter (flushCt1 w) = true then
          ((flushW1 w).startGzip).1
        else ((flushW1 w).startPlain).1) := by
  simp only [GzipResponseWriter.flushOp]
  rw [if_pos ⟨hgw, hig⟩, if_neg hb]
  by_cases hct : hget w.header contentType = ""
  · by_cases hk : hasKey w.header contentType = false
    · by_cases hcl : (atoi (hget w.header contentLength)).1 = 0 <;>
        simp [flushW1, flushCt1, flushCl1, hct, hk, hcl]
    · by_cases hcl : (atoi (hget w.header contentLength)).1 = 0 <;>
        simp [flushW1, flushCt1, flushCl1, hct, hk, hcl]
  · by_cases hcl : (atoi (hget w.header contentLength)).1 = 0 <;>
      simp [flushW1, flushCt1, flushCl1, hct, hcl]

/-- `Flush` on an undecided writer with an empty buffer is the identity. -/
theorem flushOp_noop (w : GzipResponseWriter) (hgw : w.gw = none) (hig : w.ignore = false)
    (hb : w.buf = []) : w.flushOp = w := by
  simp only [GzipResponseWriter.flushOp]
  rw [if_pos ⟨hgw, hig⟩, if_pos (by simp [hb])]


/-! ## Shared concrete parameters for witnesses -/

/-- A content-type filter accepting everything (`CompressAllContentTypeFilter`). -/
def alwaysEligible : String → Bool := fun _ => true

/-- A concrete stand-in for `http.DetectContentType`. -/
def detectPlain : List Nat → String := fun _ => "text/plain; charset=utf-8"

/-! ## C5 -/

/-- C5: when a `Content-Range`, `Content-Encoding`, or opt-out marker
header is set before the decision point, the write path commits plain and
the flush path (whose decision point requires a non-empty buffer) commits
plain; in both paths the compressor is never constructed, regardless of
size or content type. -/
theorem c5_disabling_headers_force_plain (w : GzipResponseWriter) (b : List Nat)
    (hgw : w.gw = none) (hig : w.ignore = false)
    (hhdr : hget w.header contentRange ≠ "" ∨ hget w.header contentEncoding ≠ "" ∨
            hvalues w.header HeaderNoCompression ≠ []) :
    ((w.write b).1.ignore = true ∧ (w.write b).1.gw = none) ∧
    ((w.flushOp).gw = none ∧ (w.buf ≠ [] → (w.flushOp).ignore = true)) := by
  have hcond : ¬((hvalues w.header HeaderNoCompression).length = 0 ∧
      hget w.header contentEncoding = "" ∧ hget w.header contentRange = "") := by
    rintro ⟨h1, h2, h3⟩
    rcases hhdr with h | h | h
    · exact h h3
    · exact h h2
    · exact h (List.length_eq_zero.mp h1)
  constructor
  · rw [write_undecided w b hgw hig, if_neg hcond]
    refine ⟨plainPath_ignore _ _ _, ?_⟩
    rw [plainPath_gw]
    exact hgw
  · by_cases hb : w.buf.length = 0
    · rw [flushOp_noop w hgw hig (List.length_eq_zero.mp hb)]
      exact ⟨hgw, fun hne => absurd (List.length_eq_zero.mp hb) hne⟩
    · rw [flushOp_eq w hgw hig hb]
      have hcond2 : ¬((hvalues (flushW1 w).header HeaderNoCompression).length = 0 ∧
          hget w.header contentEncoding = "" ∧ hget w.header contentRange = "" ∧
          (w.minSize : Int) ≤ flushCl1 w ∧ w.contentTypeFilter (flushCt1 w) = true) := by
        rintro ⟨h1, h2, h3, -, -⟩
        rw [flushW1_marker] at h1
        exact hcond ⟨h1, h2, h3⟩
      rw [if_neg hcond2]
      refine ⟨?_, fun _ => by simp⟩
      exact flushTail_gw_none _ (by rw [startPlain_gw, flushW1_gw]; exact hgw)

/-- C5 witness: a concrete undecided writer with `Content-Range` set. -/
def c5w : GzipResponseWriter :=
  { newWriter 1024 alwaysEligible detectPlain false [(contentRange, ["bytes 0-99/5000"])] with
    buf := [1, 2] }

/-- Witness for C5 at a concrete state and write. -/
theorem c5_disabling_headers_force_plain_witness :
    ((c5w.write [3, 4]).1.ignore = true ∧ (c5w.write [3, 4]).1.gw = none) ∧
    ((c5w.flushOp).gw = none ∧ (c5w.buf ≠ [] → (c5w.flushOp).ignore = true)) :=
  c5_disabling_headers_force_plain c5w [3, 4] rfl rfl (Or.inl (by decide))

/-! ## C9 -/

/-- C9: flush on an undecided interceptor with an empty buffer is a
complete no-op (not even the sink's flush runs); with a non-empty buffer
it forces the write path's eligibility test with the declared
Content-Length replaced by `minSize` when absent, so an eligible response
with no declared length commits compressed even when fewer than `minSize`
bytes are buffered, and the flush is forwarded to the chosen path. -/
theorem c9_flush_noop_or_commit (w : GzipResponseWriter)
    (hgw : w.gw = none) (hig : w.ignore = false) :
    (w.buf = [] → w.flushOp = w) ∧
    (w.buf ≠ [] →
      hvalues w.header HeaderNoCompression = [] →
      hget w.header contentEncoding = "" →
      hget w.header contentRange = "" →
      (atoi (hget w.header contentLength)).1 = 0 →
      w.contentTypeFilter (flushCt1 w) = true →
      w.gwScript = [] →
      ∃ g, (w.flushOp).gw = some g ∧ g.input = w.buf ∧ g.flushes = 1 ∧
        (w.flushOp).sinkFlushes = w.sinkFlushes + 1) := by
  constructor
  · exact fun hb => flushOp_noop w hgw hig hb
  · intro hb hmk hce hcr hcl hft hgs
    have hbl : ¬ w.buf.length = 0 := by
      simpa [List.length_eq_zero] using hb
    rw [flushOp_eq w hgw hig hbl]
    have hcond : (hvalues (flushW1 w).header HeaderNoCompression).length = 0 ∧
        hget w.header contentEncoding = "" ∧ hget w.header contentRange = "" ∧
        (w.minSize : Int) ≤ flushCl1 w ∧ w.contentTypeFilter (flushCt1 w) = true := by
      refine ⟨?_, hce, hcr, ?_, hft⟩
      · rw [flushW1_marker, hmk]
        rfl
      · simp [flushCl1, hcl]
    rw [if_pos hcond]
    have hb1 : (flushW1 w).buf ≠ [] := by simpa using hb
    have hg1 : (flushW1 w).gwScript = [] := by simpa using hgs
    obtain ⟨hgww, -⟩ := startGzip_gw_of_nonempty (flushW1 w) hb1 hg1
    refine ⟨{ input := w.buf, script := [], flushes := 1, closeErr := w.gwCloseErr },
      ?_, rfl, rfl, ?_⟩
    · have h2 := flushTail_gw_some _ _ hgww
      simpa using h2
    · simp

/-- C9 witness: a concrete undecided writer holding one buffered byte and
no declared Content-Length. -/
def c9w : GzipResponseWriter :=
  { newWriter 1024 alwaysEligible detectPlain false [] with buf := [9] }

/-- Witness for C9 at a concrete state. -/
theorem c9_flush_noop_or_commit_witness :
    ∃ g, (c9w.flushOp).gw = some g ∧ g.input = c9w.buf ∧ g.flushes = 1 ∧
      (c9w.flushOp).sinkFlushes = c9w.sinkFlushes + 1 :=
  (c9_flush_noop_or_commit c9w rfl rfl).2 (by decide) rfl rfl rfl rfl rfl rfl


/-! ## C7 -/

/-- `startPlain` with an empty buffer writes no body bytes and succeeds. -/
theorem startPlain_empty_buf (w : GzipResponseWriter) (hb : w.buf = []) :
    sinkBytes (w.startPlain).1.sinkTrace = sinkBytes w.sinkTrace ∧
    (w.startPlain).2 = none := by
  simp only [GzipResponseWriter.startPlain, sinkWriteHeader]
  split_ifs <;> simp_all [sinkBytes]

/-- C7: close is idempotent.  For any interceptor state whose compressor
(if active) has already consumed the buffer, a second close after a
successful close releases no compressor again (`gwCloses` unchanged),
writes no buffered byte and no further body byte to the sink, and returns
no error. -/
theorem c7_close_idempotent (w w1 : GzipResponseWriter)
    (hbuf : ∀ g, w.gw = some g → w.buf = [])
    (h1 : w.close = (w1, none)) :
    (w1.close).2 = none ∧ (w1.close).1.gwCloses = w1.gwCloses ∧
    sinkBytes (w1.close).1.sinkTrace = sinkBytes w1.sinkTrace := by
  by_cases hig : w.ignore = true
  · simp only [GzipResponseWriter.close, hig, if_true] at h1
    obtain ⟨hw, -⟩ := Prod.mk.injEq .. ▸ h1
    subst hw
    simp [GzipResponseWriter.close, hig]
  · have hig' : w.ignore = false := by
      cases hfi : w.ignore
      · rfl
      · exact absurd hfi hig
    rcases hg : w.gw with _ | g
    · simp only [GzipResponseWriter.close, hig', hg, Bool.false_eq_true, if_false] at h1
      rcases hsp : (w.startPlain).2 with _ | e
      · rw [hsp] at h1
        simp only [Prod.mk.injEq] at h1
        obtain ⟨hw, -⟩ := h1
        have hi1 : w1.ignore = true := by rw [← hw]; exact startPlain_ignore w
        simp [GzipResponseWriter.close, hi1]
      · rw [hsp] at h1
        simp at h1
    · simp only [GzipResponseWriter.close, hig', hg, Bool.false_eq_true, if_false] at h1
      simp only [Prod.mk.injEq] at h1
      obtain ⟨hw, -⟩ := h1
      have hi1 : w1.ignore = false := by rw [← hw]
      have hgw1 : w1.gw = none := by rw [← hw]
      have hb1 : w1.buf = [] := by rw [← hw]; exact hbuf g hg
      obtain ⟨htr, hok⟩ := startPlain_empty_buf w1 hb1
      simp only [GzipResponseWriter.close, hi1, Bool.false_eq_true, if_false, hgw1]
      rw [hok]
      exact ⟨rfl, startPlain_gwCloses w1, htr⟩

/-- C7 witness: an interceptor committed to compressed mode. -/
def c7w : GzipResponseWriter :=
  { newWriter 3 alwaysEligible detectPlain false [] with
    gw := some { input := [1, 2, 3], script := [], flushes := 0, closeErr := none } }

/-- Witness for C7: closing twice from a committed-compressed state. -/
theorem c7_close_idempotent_witness :
    (((c7w.close).1).close).2 = none ∧
    (((c7w.close).1).close).1.gwCloses = (c7w.close).1.gwCloses ∧
    sinkBytes (((c7w.close).1).close).1.sinkTrace = sinkBytes (c7w.close).1.sinkTrace :=
  c7_close_idempotent c7w (c7w.close).1 (fun _ _ => rfl) rfl

/-! ## C2 -/

/-- `startPlain` propagates a scripted sink error verbatim. -/
theorem startPlain_fail (w : GzipResponseWriter) (e : GoError) (rest : List WriteRes)
    (hs : w.sinkScript = .fail e :: rest) (hb : w.buf ≠ []) :
    (w.startPlain).2 = some e := by
  have hbl : ¬ w.buf.length = 0 := by simpa [List.length_eq_zero] using hb
  simp only [GzipResponseWriter.startPlain, sinkWriteHeader, sinkWrite]
  split_ifs <;> simp_all

/-- A failing `startPlain` makes the plain branch of `Write` return the
error unchanged. -/
theorem plainPath_fail (w : GzipResponseWriter) (remain : List Nat) (blen : Nat)
    (e : GoError) (h : (w.startPlain).2 = some e) :
    (plainPath w remain blen).2.2 = some e := by
  simp only [plainPath]
  rw [h]

/-- If the very first byte of the incoming write survives buffering, the
extended buffer is non-empty. -/
theorem bufExt_ne (w : GzipResponseWriter) (b : List Nat) (h : w.buf ++ b ≠ []) :
    w.buf ++ b.take (bufTake w b) ≠ [] := by
  have h0 : ¬ (w.buf.length + b.length = 0) := by
    intro hc
    apply h
    have : (w.buf ++ b).length = 0 := by rw [List.length_append]; omega
    exact List.length_eq_zero.mp this
  intro hc
  have hlen : (w.buf ++ b.take (bufTake w b)).length = 0 := by rw [hc]; rfl
  rw [List.length_append, List.length_take] at hlen
  unfold bufTake wantBufSize at hlen
  split_ifs at hlen <;> omega

/-- C2 (amended): downstream errors are propagated verbatim by `Write`
(both the compressed-mode forward and the buffer flush of a plain commit)
and by `Close` of an active compressor; but the plain commit performed by
`Close` on an undecided interceptor wraps the sink's error in a
descriptive message instead of returning the same value, and `Flush`
cannot report errors at all. -/
theorem c2_error_propagation_amended :
    (∀ (w : GzipResponseWriter) (b : List Nat) (g : GzipWriter) (e : GoError)
       (rest : List WriteRes), w.gw = some g → g.script = .fail e :: rest →
       (w.write b).2.2 = some e) ∧
    (∀ (w : GzipResponseWriter) (b : List Nat) (e : GoError) (rest : List WriteRes),
       w.gw = none → w.ignore = false → hvalues w.header HeaderNoCompression ≠ [] →
       w.buf ++ b ≠ [] → w.sinkScript = .fail e :: rest →
       (w.write b).2.2 = some e) ∧
    (∀ (w : GzipResponseWriter) (g : GzipWriter), w.gw = some g → w.ignore = false →
       (w.close).2 = g.closeErr) ∧
    (∀ (w : GzipResponseWriter) (e : GoError) (rest : List WriteRes),
       w.gw = none → w.ignore = false → w.buf ≠ [] → w.sinkScript = .fail e :: rest →
       (w.close).2 = some (wrapCloseError e)) := by
  refine ⟨?_, ?_, ?_, ?_⟩
  · intro w b g e rest hgw hscr
    rw [write_gwMode w b g hgw]
    simp [gwWrite, hscr]
  · intro w b e rest hgw hig hmk hne hscr
    have hcond : ¬((hvalues w.header HeaderNoCompression).length = 0 ∧
        hget w.header contentEncoding = "" ∧ hget w.header contentRange = "") := by
      rintro ⟨hl, -, -⟩
      exact hmk (List.length_eq_zero.mp hl)
    rw [write_undecided w b hgw hig, if_neg hcond]
    exact plainPath_fail _ _ _ e (startPlain_fail _ e rest hscr (bufExt_ne w b hne))
  · intro w g hgw hig
    simp [GzipResponseWriter.close, hig, hgw]
  · intro w e rest hgw hig hb hscr
    have hsp := startPlain_fail w e rest hscr hb
    simp only [GzipResponseWriter.close, hig, Bool.false_eq_true, if_false, hgw]
    rw [hsp]

/-- Witness state for C2: an undecided interceptor whose sink fails. -/
def c2w : GzipResponseWriter :=
  { newWriter 1024 alwaysEligible detectPlain false [] with
    buf := [7], sinkScript := [.fail (.mk "boom")] }

/-- A second witness state for C2: compressed mode with a failing script. -/
def c2wgz : GzipResponseWriter :=
  { newWriter 1024 alwaysEligible detectPlain false [] with
    gw := some { input := [], script := [.fail (.mk "gzfail")], flushes := 0, closeErr := none } }

/-- Witness for the amended C2, instantiating the compressed-write conjunct
and the close-wrapping conjunct at concrete states. -/
theorem c2_error_propagation_amended_witness :
    (c2wgz.write [1]).2.2 = some (.mk "gzfail") ∧
    (c2w.close).2 = some (wrapCloseError (.mk "boom")) :=
  ⟨c2_error_propagation_amended.1 c2wgz [1] _ (.mk "gzfail") [] rfl rfl,
   c2_error_propagation_amended.2.2.2 c2w (.mk "boom") [] rfl rfl (by decide) rfl⟩

/-- C2 counterexample: at `c2w`, `Close` returns a wrapped error, not the
sink's error value `boom` — so "propagated verbatim ... for close" fails. -/
theorem c2_error_propagation_counterexample :
    (c2w.close).2 =
      some (GoError.mk
        ("gziphandler: write to regular responseWriter at close gets error: " ++
          "\x22boom\x22")) ∧
    (c2w.close).2 ≠ some (GoError.mk "boom") := by
  constructor
  · rfl
  · decide

/-! ## C4 -/

/-- The writer `NewWrapper` would build for the C4 trace. -/
def c4w : GzipResponseWriter := newWriter 1024 alwaysEligible detectPlain false []

/-- The C4 failing trace: declared length 2000, status 204, an empty first
write (committing compressed with an empty buffer, so no compressor is
constructed), a second status 500, then a one-byte write. -/
def c4ops : List HandlerOp :=
  [.setHeader contentLength "2000", .writeHeader 204, .write [], .writeHeader 500,
   .write [65]]

/-- C4 (code bug): on `c4ops` the sink's status-code commit runs twice —
204 at the empty-buffer compressed commit, then 500 at the plain commit
the next write falls into because `Content-Encoding` is now set — so "at
most one status-code commit" fails on this input. -/
theorem c4_status_committed_twice :
    (runOps c4w c4ops).sinkTrace = [.headerEv 204, .headerEv 500, .bytesEv [65]] ∧
    headerEvCount (runOps c4w c4ops).sinkTrace = 2 := by
  constructor <;> rfl


/-! ## Case analysis of writeDecide -/

/-- The decision step may replace the state by one with a sniffed
`Content-Type` set; everything except that header entry is unchanged. -/
structure SameCore (w2 w1 : GzipResponseWriter) : Prop where
  buf_eq : w2.buf = w1.buf
  gw_eq : w2.gw = w1.gw
  gwScript_eq : w2.gwScript = w1.gwScript
  gwCloseErr_eq : w2.gwCloseErr = w1.gwCloseErr
  ignore_eq : w2.ignore = w1.ignore
  minSize_eq : w2.minSize = w1.minSize
  sinkScript_eq : w2.sinkScript = w1.sinkScript
  sinkTrace_eq : w2.sinkTrace = w1.sinkTrace
  sinkFlushes_eq : w2.sinkFlushes = w1.sinkFlushes
  gwCloses_eq : w2.gwCloses = w1.gwCloses
  marker_eq : hvalues w2.header HeaderNoCompression = hvalues w1.header HeaderNoCompression
  ce_vals_eq : hvalues w2.header contentEncoding = hvalues w1.header contentEncoding

theorem sameCore_refl (w1 : GzipResponseWriter) : SameCore w1 w1 :=
  ⟨rfl, rfl, rfl, rfl, rfl, rfl, rfl, rfl, rfl, rfl, rfl, rfl⟩

theorem sameCore_setCT (w1 : GzipResponseWriter) (ct2 : String) :
    SameCore { w1 with header := hset w1.header contentType ct2 } w1 :=
  ⟨rfl, rfl, rfl, rfl, rfl, rfl, rfl, rfl, rfl, rfl,
   hvalues_hset_ne _ (by decide) _, hvalues_hset_ne _ (by decide) _⟩

/-- The decision step (gzip.go:106-151) either waits (buffer still below
`minSize`, nothing consumed), commits compressed, or commits plain — the
latter two possibly after setting a sniffed `Content-Type`. -/
theorem writeDecide_cases (w1 : GzipResponseWriter) (remain : List Nat) (blen : Nat) :
    (w1.buf.length < w1.minSize ∧ writeDecide w1 remain blen = (w1, blen, none)) ∨
    (∃ w2 : GzipResponseWriter, SameCore w2 w1 ∧
      writeDecide w1 remain blen = gzipPath w2 remain blen) ∨
    (∃ w2 : GzipResponseWriter, SameCore w2 w1 ∧
      writeDecide w1 remain blen = plainPath w2 remain blen) := by
  simp only [writeDecide]
  split_ifs with h1 h2 h3 h4 h5 h6 h7 h8 h9 h10
  all_goals
    first
    | exact Or.inl ⟨by omega, rfl⟩
    | exact Or.inr (Or.inl ⟨w1, sameCore_refl w1, rfl⟩)
    | exact Or.inr (Or.inl ⟨_, sameCore_setCT w1 _, rfl⟩)
    | exact Or.inr (Or.inr ⟨w1, sameCore_refl w1, rfl⟩)
    | exact Or.inr (Or.inr ⟨_, sameCore_setCT w1 _, rfl⟩)


/-! ## C10 -/

/-- If the extended buffer is still below `minSize`, the incoming write
was absorbed whole (the truncating branch would have filled the buffer to
`max(512, minSize) >= minSize`). -/
theorem bufTake_all (w : GzipResponseWriter) (b : List Nat)
    (h : (w.buf ++ b.take (bufTake w b)).length < w.minSize) : bufTake w b = b.length := by
  rw [List.length_append, List.length_take] at h
  unfold bufTake wantBufSize at *
  split_ifs at * <;> omega

/-- Appending to an empty buffer absorbs at least one byte. -/
theorem bufTake_pos (w : GzipResponseWriter) (b : List Nat) (hbuf : w.buf = [])
    (hb : b ≠ []) : 0 < bufTake w b := by
  have hbl : 0 < b.length := List.length_pos.mpr hb
  have h0 : w.buf.length = 0 := by simp [hbuf]
  unfold bufTake wantBufSize
  split_ifs <;> omega

/-- Buffering never grows the buffer past `max(512, minSize)`. -/
theorem bufExt_le (w : GzipResponseWriter) (b : List Nat)
    (h : w.buf.length ≤ wantBufSize w) :
    (w.buf ++ b.take (bufTake w b)).length ≤ wantBufSize w := by
  rw [List.length_append, List.length_take]
  unfold bufTake wantBufSize at *
  split_ifs at * <;> omega

@[simp]
theorem writeDecide_minSize (w1 : GzipResponseWriter) (remain : List Nat) (blen : Nat) :
    (writeDecide w1 remain blen).1.minSize = w1.minSize := by
  simp only [writeDecide]
  repeat' split
  all_goals simp

@[simp]
theorem write_minSize (w : GzipResponseWriter) (b : List Nat) :
    (w.write b).1.minSize = w.minSize := by
  simp only [GzipResponseWriter.write]
  repeat' split
  all_goals simp

@[simp]
theorem flushOp_minSize (w : GzipResponseWriter) : (w.flushOp).minSize = w.minSize := by
  simp only [GzipResponseWriter.flushOp]
  repeat' split
  all_goals simp

@[simp]
theorem close_minSize (w : GzipResponseWriter) : (w.close).1.minSize = w.minSize := by
  simp only [GzipResponseWriter.close]
  repeat' split
  all_goals simp

/-- `wantBufSize` depends only on `minSize`. -/
theorem wantBufSize_congr (w w' : GzipResponseWriter) (h : w'.minSize = w.minSize) :
    wantBufSize w' = wantBufSize w := by
  unfold wantBufSize
  rw [h]

/-- After any single write, a buffer within the cap stays within the cap. -/
theorem write_buf_bound (w : GzipResponseWriter) (b : List Nat)
    (h : w.buf.length ≤ wantBufSize w) :
    (w.write b).1.buf.length ≤ wantBufSize w := by
  rcases hgw : w.gw with _ | g
  · cases hig : w.ignore
    · rw [write_undecided w b hgw hig]
      split_ifs with hchk
      · rcases writeDecide_cases { w with buf := w.buf ++ b.take (bufTake w b) }
            (b.drop (bufTake w b)) b.length with ⟨-, heq⟩ | ⟨w2, -, heq⟩ | ⟨w2, -, heq⟩
        · rw [heq]
          simpa using bufExt_le w b h
        · rw [heq]
          simp
        · rw [heq]
          simp
      · simp
    · rw [write_ignoreMode w b hgw hig]
      simpa using h
  · rw [write_gwMode w b g hgw]
    simpa using h

/-- `Flush` either leaves the buffer alone or consumes it. -/
theorem flushOp_buf (w : GzipResponseWriter) :
    (w.flushOp).buf = w.buf ∨ (w.flushOp).buf = [] := by
  simp only [GzipResponseWriter.flushOp]
  repeat' split
  all_goals simp

/-- `Close` either leaves the buffer alone or consumes it. -/
theorem close_buf (w : GzipResponseWriter) :
    (w.close).1.buf = w.buf ∨ (w.close).1.buf = [] := by
  simp only [GzipResponseWriter.close]
  repeat' split
  all_goals simp

/-- Every handler action preserves the buffer-cap invariant. -/
theorem runOp_buf_bound (w : GzipResponseWriter) (op : HandlerOp)
    (h : w.buf.length ≤ wantBufSize w) :
    (runOp w op).buf.length ≤ wantBufSize (runOp w op) := by
  cases op with
  | write b =>
      simp only [runOp]
      rw [wantBufSize_congr _ _ (write_minSize w b)]
      exact write_buf_bound w b h
  | writeHeader c =>
      simp only [runOp, GzipResponseWriter.writeHeader]
      split_ifs <;> simpa using h
  | flush =>
      simp only [runOp]
      rw [wantBufSize_congr _ _ (flushOp_minSize w)]
      rcases flushOp_buf w with hb | hb <;> rw [hb]
      · exact h
      · simp
  | close =>
      simp only [runOp]
      rw [wantBufSize_congr _ _ (close_minSize w)]
      rcases close_buf w with hb | hb <;> rw [hb]
      · exact h
      · simp
  | setHeader k v =>
      simpa [runOp] using h

/-- C10: a successful write that leaves the interceptor undecided has
absorbed its whole input into the buffer — the un-buffered remainder is
necessarily empty, so no bytes are silently dropped — and every handler
action keeps the buffer within `max(512, minSize)` bytes. -/
theorem c10_wait_absorbs_and_buffer_bounded (w : GzipResponseWriter) (b : List Nat)
    (hgw : w.gw = none) (hig : w.ignore = false) :
    ((w.write b).1.gw = none → (w.write b).1.ignore = false →
      (w.write b).1.buf = w.buf ++ b ∧ (w.write b).2.1 = b.length ∧
      (w.write b).2.2 = none) ∧
    (∀ (w2 : GzipResponseWriter) (op : HandlerOp),
      w2.buf.length ≤ wantBufSize w2 →
      (runOp w2 op).buf.length ≤ wantBufSize (runOp w2 op)) := by
  refine ⟨?_, fun w2 op h2 => runOp_buf_bound w2 op h2⟩
  rw [write_undecided w b hgw hig]
  split_ifs with hchk
  · rcases writeDecide_cases { w with buf := w.buf ++ b.take (bufTake w b) }
        (b.drop (bufTake w b)) b.length with ⟨hlt, heq⟩ | ⟨w2, hsc, heq⟩ | ⟨w2, hsc, heq⟩ <;>
      rw [heq]
    · -- the wait branch: everything was buffered
      intro _ _
      have hall := bufTake_all w b (by simpa using hlt)
      rw [hall]
      simp
    · -- a compressed commit cannot end with `gw = none` unless nothing was written
      intro hres1 hres2
      by_cases hb2 : w2.buf = []
      · have hb1 : w.buf ++ b.take (bufTake w b) = [] := by
          have := hsc.buf_eq
          rw [hb2] at this
          exact this.symm
        obtain ⟨hwb, htk⟩ := List.append_eq_nil.mp hb1
        have hbnil : b = [] := by
          by_contra hbne
          have hpos := bufTake_pos w b hwb hbne
          rcases List.take_eq_nil_iff.mp htk with h0 | h0
          · omega
          · exact hbne h0
        have hre : b.drop (bufTake w b) = [] := by rw [hbnil]; simp
        obtain ⟨hq1, hq2, hq3⟩ := gzipPath_quirk w2 (b.drop (bufTake w b)) b.length hb2 hre
        refine ⟨?_, hq3, hq2⟩
        rw [gzipPath_buf, hwb, hbnil]
        rfl
      · obtain ⟨g, hgg⟩ := gzipPath_gw_isSome w2 (b.drop (bufTake w b)) b.length hb2
        rw [hgg] at hres1
        cases hres1
    · -- a plain commit sets `ignore`, contradicting the wait outcome
      intro hres1 hres2
      rw [plainPath_ignore] at hres2
      cases hres2
  · intro hres1 hres2
    rw [plainPath_ignore] at hres2
    cases hres2

/-- C10 witness: an undecided writer absorbing a short write. -/
def c10w : GzipResponseWriter := newWriter 1024 alwaysEligible detectPlain false []

/-- Witness for C10 at a concrete state and write. -/
theorem c10_wait_absorbs_and_buffer_bounded_witness :
    (c10w.write [1, 2, 3]).1.buf = c10w.buf ++ [1, 2, 3] ∧
    (c10w.write [1, 2, 3]).2.1 = 3 ∧ (c10w.write [1, 2, 3]).2.2 = none :=
  (c10_wait_absorbs_and_buffer_bounded c10w [1, 2, 3] rfl rfl).1 rfl rfl


/-! ## C6 -/

/-- `writeAll` step equation. -/
theorem writeAll_cons (w : GzipResponseWriter) (c : List Nat) (cs : List (List Nat)) :
    writeAll w (c :: cs) = writeAll (w.write c).1 cs := rfl

/-- A nonzero declared length below `minSize` falls through to the plain
commit (both disjuncts of the decision condition are false). -/
theorem writeDecide_plain_of_small_cl (w1 : GzipResponseWriter) (remain : List Nat)
    (blen : Nat) (hne : (atoi (hget w1.header contentLength)).1 ≠ 0)
    (hlt : (atoi (hget w1.header contentLength)).1 < (w1.minSize : Int)) :
    writeDecide w1 remain blen = plainPath w1 remain blen := by
  simp only [writeDecide]
  rw [if_neg]
  rintro (hc | ⟨hc, -⟩)
  · exact hne hc
  · omega

/-- Committed-plain passthrough over a whole write sequence (compliant
sink): headers untouched, every byte forwarded in order. -/
theorem writeAll_ignore (w : GzipResponseWriter) (bs : List (List Nat))
    (hig : w.ignore = true) (hgw : w.gw = none) (hs : w.sinkScript = []) :
    (writeAll w bs).ignore = true ∧ (writeAll w bs).gw = none ∧
    (writeAll w bs).header = w.header ∧ (writeAll w bs).sinkScript = [] ∧
    sinkBytes (writeAll w bs).sinkTrace = sinkBytes w.sinkTrace ++ bs.flatten := by
  induction bs generalizing w with
  | nil => simp [writeAll, hig, hgw, hs]
  | cons c cs ih =>
    rw [writeAll_cons]
    rw [write_ignoreMode w c hgw hig, sinkWrite_nilScript w c hs]
    obtain ⟨h1, h2, h3, h4, h5⟩ :=
      ih { w with sinkTrace := w.sinkTrace ++ [SinkEv.bytesEv c] }
        (by simpa using hig) (by simpa using hgw) (by simpa using hs)
    refine ⟨h1, h2, by simpa using h3, h4, ?_⟩
    rw [h5]
    simp [sinkBytes]

/-- C6: a declared Content-Length that is nonzero and strictly below
`minSize` makes the first write commit plain; over the whole run the sink
receives exactly the handler's bytes and the Content-Encoding header is
never touched. -/
theorem c6_small_declared_length_passthrough (ms : Nat) (filt : String → Bool)
    (det : List Nat → String) (kar : Bool) (hdr : Headers) (b : List Nat)
    (bs : List (List Nat))
    (hne : (atoi (hget hdr contentLength)).1 ≠ 0)
    (hlt : (atoi (hget hdr contentLength)).1 < (ms : Int)) :
    (writeAll (newWriter ms filt det kar hdr) (b :: bs)).ignore = true ∧
    (writeAll (newWriter ms filt det kar hdr) (b :: bs)).gw = none ∧
    sinkBytes (writeAll (newWriter ms filt det kar hdr) (b :: bs)).sinkTrace =
      (b :: bs).flatten ∧
    hvalues (writeAll (newWriter ms filt det kar hdr) (b :: bs)).header contentEncoding =
      hvalues hdr contentEncoding := by
  rw [writeAll_cons]
  have h1 : (newWriter ms filt det kar hdr).write b =
      plainPath { newWriter ms filt det kar hdr with
                    buf := (newWriter ms filt det kar hdr).buf ++
                      b.take (bufTake (newWriter ms filt det kar hdr) b) }
        (b.drop (bufTake (newWriter ms filt det kar hdr) b)) b.length := by
    rw [write_undecided _ b rfl rfl]
    split_ifs with hchk
    · exact writeDecide_plain_of_small_cl _ _ _ (by simpa using hne) (by simpa using hlt)
    · rfl
  have hig1 : ((newWriter ms filt det kar hdr).write b).1.ignore = true := by
    rw [h1]
    exact plainPath_ignore _ _ _
  have hgw1 : ((newWriter ms filt det kar hdr).write b).1.gw = none := by
    rw [h1, plainPath_gw]
    rfl
  obtain ⟨hok1, hok2, hok3, hok4⟩ := plainPath_ok
    { newWriter ms filt det kar hdr with
        buf := (newWriter ms filt det kar hdr).buf ++
          b.take (bufTake (newWriter ms filt det kar hdr) b) }
    (b.drop (bufTake (newWriter ms filt det kar hdr) b)) b.length rfl
  have hss1 : ((newWriter ms filt det kar hdr).write b).1.sinkScript = [] := by
    rw [h1]
    exact hok3
  have htr1 : sinkBytes ((newWriter ms filt det kar hdr).write b).1.sinkTrace = b := by
    rw [h1, hok4]
    simp [newWriter, sinkBytes, List.take_append_drop]
  have hh1 : ((newWriter ms filt det kar hdr).write b).1.header =
      hdel hdr HeaderNoCompression := by
    rw [h1, plainPath_header]
    rfl
  obtain ⟨hA, hB, hC, hD, hE⟩ := writeAll_ignore _ bs hig1 hgw1 hss1
  refine ⟨hA, hB, ?_, ?_⟩
  · rw [hE, htr1]
    rfl
  · rw [hC, hh1, hvalues_hdel_ne _ (by decide)]

/-- C6 witness: Content-Length 3 with minSize 1024. -/
def c6hdr : Headers := [(contentLength, ["3"])]

/-- Witness for C6 at a concrete run. -/
theorem c6_small_declared_length_passthrough_witness :
    (writeAll (newWriter 1024 alwaysEligible detectPlain false c6hdr) [[1, 2], [3]]).ignore =
      true ∧
    (writeAll (newWriter 1024 alwaysEligible detectPlain false c6hdr) [[1, 2], [3]]).gw =
      none ∧
    sinkBytes
      (writeAll (newWriter 1024 alwaysEligible detectPlain false c6hdr)
        [[1, 2], [3]]).sinkTrace = [[1, 2], [3]].flatten ∧
    hvalues
      (writeAll (newWriter 1024 alwaysEligible detectPlain false c6hdr)
        [[1, 2], [3]]).header contentEncoding = hvalues c6hdr contentEncoding :=
  c6_small_declared_length_passthrough 1024 alwaysEligible detectPlain false c6hdr
    [1, 2] [[3]] (by decide) (by decide)


/-! ## C1 -/

@[simp]
theorem startGzip_gwScript (w : GzipResponseWriter) :
    (w.startGzip).1.gwScript = w.gwScript := by
  simp only [GzipResponseWriter.startGzip, sinkWriteHeader]
  split_ifs <;> simp

@[simp]
theorem gzipPath_gwScript (w : GzipResponseWriter) (remain : List Nat) (blen : Nat) :
    (gzipPath w remain blen).1.gwScript = w.gwScript := by
  simp only [gzipPath]
  repeat' split
  all_goals simp

/-- Run invariant for C1: the interceptor is still buffering and the
buffer holds exactly the bytes written so far. -/
def UndecidedAcc (w : GzipResponseWriter) (acc : List Nat) : Prop :=
  w.gw = none ∧ w.ignore = false ∧ w.buf = acc ∧ w.sinkScript = [] ∧ w.gwScript = []

/-- Run invariant for C1: committed compressed, the compressor has been
fed exactly the bytes written so far, and the headers carry
`Content-Encoding: gzip` with `Content-Length` removed. -/
def GzAcc (w : GzipResponseWriter) (acc : List Nat) : Prop :=
  ∃ g : GzipWriter, w.gw = some g ∧ g.input = acc ∧ g.script = [] ∧
    hget w.header contentEncoding = "gzip" ∧ hasKey w.header contentLength = false

/-- Run invariant for C1: committed plain (absorbing). -/
def PlainAbs (w : GzipResponseWriter) : Prop := w.ignore = true ∧ w.gw = none

/-- C1 run invariant. -/
def C1Inv (w : GzipResponseWriter) (acc : List Nat) : Prop :=
  UndecidedAcc w acc ∨ GzAcc w acc ∨ PlainAbs w

/-- One write preserves the C1 invariant, extending the account by the
bytes written. -/
theorem c1_step (w : GzipResponseWriter) (acc b : List Nat) (h : C1Inv w acc) :
    C1Inv (w.write b).1 (acc ++ b) := by
  rcases h with ⟨hgw, hig, hbuf, hss, hgs⟩ | ⟨g, hgw, hin, hsc, hce, hcl⟩ | ⟨hig, hgw⟩
  · rw [write_undecided w b hgw hig]
    split_ifs with hchk
    · rcases writeDecide_cases { w with buf := w.buf ++ b.take (bufTake w b) }
          (b.drop (bufTake w b)) b.length with ⟨hlt, heq⟩ | ⟨w2, hsc2, heq⟩ | ⟨w2, hsc2, heq⟩ <;>
        rw [heq]
      · left
        have hall := bufTake_all w b (by simpa using hlt)
        refine ⟨by simpa using hgw, by simpa using hig, ?_, by simpa using hss,
          by simpa using hgs⟩
        show w.buf ++ b.take (bufTake w b) = acc ++ b
        rw [hall, List.take_length, hbuf]
      · by_cases hb2 : w2.buf = []
        · -- quirk: empty buffer at the compressed commit, so nothing happened
          have hb1 : w.buf ++ b.take (bufTake w b) = [] := by
            have hx := hsc2.buf_eq
            rw [hb2] at hx
            exact hx.symm
          obtain ⟨hwb, htk⟩ := List.append_eq_nil.mp hb1
          have hbnil : b = [] := by
            by_contra hbne
            have hpos := bufTake_pos w b hwb hbne
            rcases List.take_eq_nil_iff.mp htk with h0 | h0
            · omega
            · exact hbne h0
          have hre : b.drop (bufTake w b) = [] := by rw [hbnil]; simp
          obtain ⟨hq1, -, -⟩ := gzipPath_quirk w2 (b.drop (bufTake w b)) b.length hb2 hre
          left
          have haccnil : acc = [] := by rw [← hbuf]; exact hwb
          refine ⟨?_, ?_, ?_, ?_, ?_⟩
          · rw [hq1, hsc2.gw_eq]
            simpa using hgw
          · rw [gzipPath_ignore, hsc2.ignore_eq]
            simpa using hig
          · rw [gzipPath_buf, haccnil, hbnil]
            rfl
          · rw [gzipPath_sinkScript, hsc2.sinkScript_eq]
            simpa using hss
          · rw [gzipPath_gwScript, hsc2.gwScript_eq]
            simpa using hgs
        · have hg2 : w2.gwScript = [] := by
            rw [hsc2.gwScript_eq]
            simpa using hgs
          obtain ⟨hgg, -, -⟩ := gzipPath_gw_ok w2 (b.drop (bufTake w b)) b.length hb2 hg2
          right; left
          refine ⟨_, hgg, ?_, rfl, gzipPath_header_ce _ _ _, gzipPath_header_cl _ _ _⟩
          show w2.buf ++ b.drop (bufTake w b) = acc ++ b
          rw [hsc2.buf_eq]
          show w.buf ++ b.take (bufTake w b) ++ b.drop (bufTake w b) = acc ++ b
          rw [List.append_assoc, List.take_append_drop, hbuf]
      · right; right
        refine ⟨plainPath_ignore _ _ _, ?_⟩
        rw [plainPath_gw, hsc2.gw_eq]
        simpa using hgw
    · right; right
      refine ⟨plainPath_ignore _ _ _, ?_⟩
      rw [plainPath_gw]
      simpa using hgw
  · rw [write_gwMode w b g hgw]
    right; left
    rw [gwWrite_nilScript g b hsc]
    exact ⟨_, rfl, by simpa using hin, by simpa using hsc, by simpa using hce,
      by simpa using hcl⟩
  · rw [write_ignoreMode w b hgw hig]
    right; right
    exact ⟨by simpa using hig, by simpa using hgw⟩

/-- The C1 invariant holds across a whole run of writes. -/
theorem c1_run (bs : List (List Nat)) (w : GzipResponseWriter) (acc : List Nat)
    (h : C1Inv w acc) : C1Inv (writeAll w bs) (acc ++ bs.flatten) := by
  induction bs generalizing w acc with
  | nil => simpa using h
  | cons c cs ih =>
    rw [writeAll_cons]
    have hx := ih (w.write c).1 (acc ++ c) (c1_step w acc c h)
    simpa [List.append_assoc] using hx

/-- C1: whenever a run of writes from a fresh interceptor (compliant sink
and compressor) ends with an active compressor, the byte sequence fed to
the compressor — buffered bytes first, then the remainder of the
triggering write, then every subsequent write — is exactly the
concatenation of all bytes the handler wrote (no bytes lost, duplicated,
or reordered), and the committed headers carry `Content-Encoding: gzip`
with `Content-Length` removed. -/
theorem c1_compressed_stream_byte_exact (ms : Nat) (filt : String → Bool)
    (det : List Nat → String) (kar : Bool) (hdr : Headers) (bs : List (List Nat))
    (g : GzipWriter)
    (hfin : (writeAll (newWriter ms filt det kar hdr) bs).gw = some g) :
    g.input = bs.flatten ∧
    hget (writeAll (newWriter ms filt det kar hdr) bs).header contentEncoding = "gzip" ∧
    hasKey (writeAll (newWriter ms filt det kar hdr) bs).header contentLength = false := by
  have h0 : C1Inv (newWriter ms filt det kar hdr) [] :=
    Or.inl ⟨rfl, rfl, rfl, rfl, rfl⟩
  have hrun := c1_run bs (newWriter ms filt det kar hdr) [] h0
  rcases hrun with ⟨hgw, -⟩ | ⟨g2, hgw, hin, -, hce, hcl⟩ | ⟨-, hgw⟩
  · rw [hfin] at hgw
    cases hgw
  · rw [hfin] at hgw
    have hg : g2 = g := by
      injection hgw with hx
      exact hx.symm
    subst hg
    exact ⟨by simpa using hin, hce, hcl⟩
  · rw [hfin] at hgw
    cases hgw

/-- Witness for C1: three writes crossing a minSize of 3. -/
theorem c1_compressed_stream_byte_exact_witness :
    ({ input := [1, 2, 3, 4, 5], script := [], flushes := 0,
       closeErr := none } : GzipWriter).input = ([[1, 2], [3, 4], [5]] : List (List Nat)).flatten ∧
    hget (writeAll (newWriter 3 alwaysEligible detectPlain false [])
      [[1, 2], [3, 4], [5]]).header contentEncoding = "gzip" ∧
    hasKey (writeAll (newWriter 3 alwaysEligible detectPlain false [])
      [[1, 2], [3, 4], [5]]).header contentLength = false :=
  c1_compressed_stream_byte_exact 3 alwaysEligible detectPlain false []
    [[1, 2], [3, 4], [5]] _ rfl


/-! ## C3 -/

/-- `Flush` on a decided writer only forwards the flush. -/
theorem flushOp_decided (w : GzipResponseWriter) (h : ¬(w.gw = none ∧ w.ignore = false)) :
    w.flushOp = flushTail w := by
  simp only [GzipResponseWriter.flushOp]
  rw [if_neg h]

/-- `Close` from the undecided state strips the opt-out marker. -/
theorem close_marker_of_undecided (w : GzipResponseWriter) (hig : w.ignore = false)
    (hgw : w.gw = none) :
    hvalues (w.close).1.header HeaderNoCompression = [] := by
  simp only [GzipResponseWriter.close, hig, Bool.false_eq_true, if_false, hgw]
  split <;> simp

/-- `Close` never re-adds the opt-out marker. -/
theorem close_marker_preserved (w : GzipResponseWriter)
    (h : hvalues w.header HeaderNoCompression = []) :
    hvalues (w.close).1.header HeaderNoCompression = [] := by
  simp only [GzipResponseWriter.close]
  repeat' split
  all_goals simp_all

/-- `Write` never re-adds the opt-out marker. -/
theorem write_marker_preserved (w : GzipResponseWriter) (b : List Nat)
    (h : hvalues w.header HeaderNoCompression = []) :
    hvalues (w.write b).1.header HeaderNoCompression = [] := by
  rcases hgw : w.gw with _ | g
  · cases hig : w.ignore
    · rw [write_undecided w b hgw hig]
      split_ifs with hchk
      · rcases writeDecide_cases { w with buf := w.buf ++ b.take (bufTake w b) }
            (b.drop (bufTake w b)) b.length with ⟨-, heq⟩ | ⟨w2, hsc2, heq⟩ | ⟨w2, hsc2, heq⟩ <;>
          rw [heq]
        · simpa using h
        · rw [gzipPath_header_marker, hsc2.marker_eq]
          simpa using h
        · rw [plainPath_header]
          simp
      · rw [plainPath_header]
        simp
    · rw [write_ignoreMode w b hgw hig]
      simpa using h
  · rw [write_gwMode w b g hgw]
    simpa using h

/-- `Flush` never re-adds the opt-out marker. -/
theorem flushOp_marker_preserved (w : GzipResponseWriter)
    (h : hvalues w.header HeaderNoCompression = []) :
    hvalues (w.flushOp).header HeaderNoCompression = [] := by
  by_cases hcase : w.gw = none ∧ w.ignore = false
  · by_cases hb : w.buf.length = 0
    · rw [flushOp_noop w hcase.1 hcase.2 (List.length_eq_zero.mp hb)]
      exact h
    · rw [flushOp_eq w hcase.1 hcase.2 hb, flushTail_header]
      split_ifs with hcond
      · rw [startGzip_header_marker, flushW1_marker]
        exact h
      · rw [startPlain_header]
        simp
  · rw [flushOp_decided w hcase, flushTail_header]
    exact h

/-- No handler action other than setting the marker itself re-adds the
opt-out marker. -/
theorem runOp_marker_preserved (w : GzipResponseWriter) (op : HandlerOp)
    (hop : ∀ k v, op = .setHeader k v → k ≠ HeaderNoCompression)
    (h : hvalues w.header HeaderNoCompression = []) :
    hvalues (runOp w op).header HeaderNoCompression = [] := by
  cases op with
  | write b => exact write_marker_preserved w b h
  | writeHeader c =>
      simp only [runOp, GzipResponseWriter.writeHeader]
      split_ifs <;> simpa using h
  | flush => exact flushOp_marker_preserved w h
  | close => exact close_marker_preserved w h
  | setHeader k v =>
      simp only [runOp]
      rw [hvalues_hset_ne _ (hop k v rfl)]
      exact h

/-- C3 run invariant: the marker has already been cleared, or the
interceptor is still undecided (and will clear it at its commit). -/
def MarkerInv (w : GzipResponseWriter) : Prop :=
  hvalues w.header HeaderNoCompression = [] ∨ (w.ignore = false ∧ w.gw = none)

theorem markerInv_step (w : GzipResponseWriter) (op : HandlerOp)
    (hop : ∀ k v, op = .setHeader k v → k ≠ HeaderNoCompression)
    (h : MarkerInv w) : MarkerInv (runOp w op) := by
  rcases h with h | ⟨hig, hgw⟩
  · exact Or.inl (runOp_marker_preserved w op hop h)
  · by_cases hm : hvalues w.header HeaderNoCompression = []
    · exact Or.inl (runOp_marker_preserved w op hop hm)
    · cases op with
      | write b =>
          left
          rw [runOp]
          rw [write_undecided w b hgw hig]
          have hchk : ¬((hvalues w.header HeaderNoCompression).length = 0 ∧
              hget w.header contentEncoding = "" ∧ hget w.header contentRange = "") := by
            rintro ⟨h1, -, -⟩
            exact hm (List.length_eq_zero.mp h1)
          rw [if_neg hchk, plainPath_header]
          simp
      | writeHeader c =>
          right
          simp only [runOp, GzipResponseWriter.writeHeader]
          split_ifs <;> exact ⟨hig, hgw⟩
      | flush =>
          by_cases hb : w.buf.length = 0
          · right
            rw [runOp, flushOp_noop w hgw hig (List.length_eq_zero.mp hb)]
            exact ⟨hig, hgw⟩
          · left
            rw [runOp, flushOp_eq w hgw hig hb, flushTail_header]
            have hcond : ¬((hvalues (flushW1 w).header HeaderNoCompression).length = 0 ∧
                hget w.header contentEncoding = "" ∧ hget w.header contentRange = "" ∧
                (w.minSize : Int) ≤ flushCl1 w ∧
                w.contentTypeFilter (flushCt1 w) = true) := by
              rintro ⟨h1, -⟩
              rw [flushW1_marker] at h1
              exact hm (List.length_eq_zero.mp h1)
            rw [if_neg hcond, startPlain_header]
            simp
      | close =>
          left
          exact close_marker_of_undecided w hig hgw
      | setHeader k v =>
          right
          exact ⟨hig, hgw⟩

theorem markerInv_run (ops : List HandlerOp) (w : GzipResponseWriter)
    (hops : ∀ k v, HandlerOp.setHeader k v ∈ ops → k ≠ HeaderNoCompression)
    (h : MarkerInv w) : MarkerInv (runOps w ops) := by
  induction ops generalizing w with
  | nil => exact h
  | cons op rest ih =>
      have hstep := markerInv_step w op (fun k v he => hops k v (by rw [he]; simp)) h
      exact ih (runOp w op) (fun k v hm => hops k v (by simp [hm])) hstep

/-- C3 (amended): if the handler does not set the sentinel opt-out header
itself after handing the response to the interceptor, the sentinel is
absent from the headers once the interceptor is closed — the plain commit
deletes it and the compressed commit is only taken when it is absent or
empty.  (A sentinel re-set by the handler after the commit survives; see
the counterexample.) -/
theorem c3_marker_stripped_amended (ms : Nat) (filt : String → Bool)
    (det : List Nat → String) (kar : Bool) (hdr : Headers) (ops : List HandlerOp)
    (hops : ∀ k v, HandlerOp.setHeader k v ∈ ops → k ≠ HeaderNoCompression) :
    hvalues (runOps (newWriter ms filt det kar hdr) (ops ++ [.close])).header
      HeaderNoCompression = [] := by
  have hrun := markerInv_run ops (newWriter ms filt det kar hdr) hops
    (Or.inr ⟨rfl, rfl⟩)
  have hsplit : runOps (newWriter ms filt det kar hdr) (ops ++ [.close]) =
      ((runOps (newWriter ms filt det kar hdr) ops).close).1 := by
    simp [runOps, List.foldl_append, runOp]
  rw [hsplit]
  rcases hrun with h | ⟨hig, hgw⟩
  · exact close_marker_preserved _ h
  · exact close_marker_of_undecided _ hig hgw

/-- Witness state for the amended C3: sentinel set before the first write
of a 6-byte body, minSize 5 — the spec's own scenario. -/
def c3w : GzipResponseWriter :=
  newWriter 5 alwaysEligible detectPlain false [(HeaderNoCompression, ["1"])]

/-- Witness for the amended C3 on the spec's scenario trace. -/
theorem c3_marker_stripped_amended_witness :
    hvalues (runOps c3w ([.write [1, 2, 3, 4, 5, 6]] ++ [.close])).header
      HeaderNoCompression = [] :=
  c3_marker_stripped_amended 5 alwaysEligible detectPlain false
    [(HeaderNoCompression, ["1"])] [.write [1, 2, 3, 4, 5, 6]]
    (fun k v hm => by simp at hm)

/-- C3 counterexample trace: commit plain (marker stripped), then the
handler re-sets the marker, then close. -/
def c3ops : List HandlerOp :=
  [.write [1, 2, 3, 4, 5, 6], .setHeader HeaderNoCompression "1", .close]

/-- C3 counterexample: a completed (committed-plain, closed) response
whose final headers still carry the sentinel, because the handler set it
after the commit — refuting "absent from the final response headers
regardless of when the handler sets it". -/
theorem c3_marker_stripped_counterexample :
    hvalues (runOps c3w c3ops).header HeaderNoCompression = ["1"] ∧
    (runOps c3w c3ops).ignore = true := by
  constructor <;> rfl


/-! ## C8 -/

/-- Each iteration of `parseCoding`'s loop resets `qvalue`, so only the
last `;`-part's contribution survives. -/
theorem getLast?_cons_isSome {α : Type} (a : α) (l : List α) :
    ∃ x, (a :: l).getLast? = some x := by
  induction l generalizing a with
  | nil => exact ⟨a, rfl⟩
  | cons b t ih =>
    obtain ⟨x, hx⟩ := ih b
    exact ⟨x, by rw [List.getLast?_cons_cons]; exact hx⟩

theorem pcLoop_last (t : List (List Char)) (q : ℚ) :
    pcLoop t q = ((t.getLast?).map pcQ).getD q := by
  induction t generalizing q with
  | nil => rfl
  | cons p rest ih =>
    rw [pcLoop, ih (pcQ p)]
    cases rest with
    | nil => simp
    | cons p2 r2 =>
      rw [List.getLast?_cons_cons]
      obtain ⟨x, hx⟩ := getLast?_cons_isSome p2 r2
      rw [hx]
      rfl

/-- `strings.Split` always yields at least one chunk. -/
theorem splitOnChar_ne_nil (sep : Char) (s : List Char) : splitOnChar sep s ≠ [] := by
  cases s with
  | nil => simp [splitOnChar]
  | cons c t =>
    simp only [splitOnChar]
    split_ifs
    · simp
    · split <;> simp

/-- `parseCoding` computes the coding name from the first `;`-part and the
qvalue from the last `;`-part. -/
theorem parseCoding_eq (e : List Char) :
    parseCoding (String.mk e) = (codingName e, lastPartWeight e) := by
  simp only [parseCoding, codingName, lastPartWeight]
  rcases hsp : splitOnChar ';' e with _ | ⟨p0, rest⟩
  · exact absurd hsp (splitOnChar_ne_nil ';' e)
  · dsimp only
    rw [pcLoop_last]

/-- The source loop computes exactly the amended weight. -/
theorem pegLoopF_eq_agLoopF (fuel : Nat) (s : List Char) :
    pegLoopF fuel s = agLoopF fuel s := by
  induction fuel generalizing s with
  | zero => cases s <;> rfl
  | succ n ih =>
    cases s with
    | nil => rfl
    | cons c t =>
      simp only [pegLoopF, agLoopF, parseCoding_eq]
      split_ifs <;> first | rfl | exact ih _

/-- C8 (amended): the gate admits a request exactly when the method is not
HEAD and the amended gzip weight — taken from the *last* `;`-part of the
first gzip entry when that part starts with `q=` (parsed and clamped into
[0,1], `0` when unparseable), and `1.0` otherwise — is strictly positive.
(The claim's reading, "the explicit q annotation wherever it appears",
fails: a part after the q annotation resets the weight to `1.0`; see the
counterexample.) -/
theorem c8_gate_amended (r : Request) :
    acceptsGzip r =
      ((r.method != "HEAD") &&
        decide ((0 : ℚ) < amendedGzipWeight r.acceptEnc)) := by
  unfold acceptsGzip amendedGzipWeight parseEncodingGzip
  rw [pegLoopF_eq_agLoopF]

/-- Witness for the amended C8 at a concrete request. -/
theorem c8_gate_amended_witness :
    acceptsGzip { method := "GET", acceptEnc := "gzip;q=0;x" } =
      ((("GET" : String) != "HEAD") &&
        decide ((0 : ℚ) < amendedGzipWeight "gzip;q=0;x")) :=
  c8_gate_amended { method := "GET", acceptEnc := "gzip;q=0;x" }

/-- C8 counterexample: for `Accept-Encoding: gzip;q=0;x` the explicit q
annotation is `0` (so the claim says the gate must reject), yet the gate
admits the GET request — the trailing part `x` reset the weight to 1. -/
theorem c8_gate_counterexample :
    acceptsGzip { method := "GET", acceptEnc := "gzip;q=0;x" } = true ∧
    claimGzipWeight "gzip;q=0;x" = 0 := by
  constructor
  · rfl
  · decide


end Gzhttp
